import Mathlib

/-!
Verification of the storage lifecycle manager of the moyin-creator
repository (electron/handlers/path-utils.ts, storage-state.ts,
file-ops.ts, storage-manager-handlers.ts).

Shallow embedding conventions:
* An absolute filesystem path is modelled by the list of its segments
  (`"/data/old" ↦ ["data", "old"]`).  All handler inputs are assumed to be
  absolute, so `normalizePath` (which only resolves relative inputs) is the
  identity on this representation.
* Handler arguments of type `string` whose falsiness is tested (`if (!p)`)
  are modelled as `Option Path`, `none` standing for the empty string.
* The filesystem is a pair of a file table (path with content, byte size
  and mtimeMs from `stat`) and a list of explicitly created directories;
  a directory also exists implicitly when some entry lives below it.
* `fs.promises.cp` failures are injected through an oracle
  `cpFail : Path → Path → Bool`; every other primitive used by the
  modelled code paths either cannot fail or has its failure swallowed by
  the source (`.catch(() => {})`), and is modelled as total.
* `fs.unlinkSync` is modelled as removing the file entry at the exact
  path; when the path exists but no regular file sits exactly there (the
  entry is a directory), `unlinkSync` throws (EISDIR), which the import's
  try block surfaces as an `Except.error`.
-/

namespace StorageCore

abbrev Path := List String

/-! ### Path prefix toolkit (about `List.isPrefixOf` on segment lists) -/

theorem isPrefixOf_iff_exists (p q : Path) :
    p.isPrefixOf q = true ↔ ∃ r, q = p ++ r := by
  induction p generalizing q with
  | nil => simp [List.isPrefixOf]
  | cons a as ih =>
    cases q with
    | nil => simp [List.isPrefixOf]
    | cons b bs =>
      simp only [List.isPrefixOf, Bool.and_eq_true, beq_iff_eq, ih]
      constructor
      · rintro ⟨rfl, r, rfl⟩; exact ⟨r, rfl⟩
      · rintro ⟨r, h⟩
        injection h with h1 h2
        exact ⟨h1.symm, r, h2⟩

theorem isPrefixOf_refl (p : Path) : p.isPrefixOf p = true := by
  rw [isPrefixOf_iff_exists]; exact ⟨[], by simp⟩

theorem isPrefixOf_append (p r : Path) : p.isPrefixOf (p ++ r) = true := by
  rw [isPrefixOf_iff_exists]; exact ⟨r, rfl⟩

theorem isPrefixOf_trans {p q r : Path} (h1 : p.isPrefixOf q = true)
    (h2 : q.isPrefixOf r = true) : p.isPrefixOf r = true := by
  rw [isPrefixOf_iff_exists] at *
  obtain ⟨a, rfl⟩ := h1
  obtain ⟨b, rfl⟩ := h2
  exact ⟨a ++ b, by simp⟩

theorem eq_of_isPrefixOf_le_length {p q : Path} (h : p.isPrefixOf q = true)
    (hl : q.length ≤ p.length) : p = q := by
  rw [isPrefixOf_iff_exists] at h
  obtain ⟨r, rfl⟩ := h
  have : r = [] := by
    cases r with
    | nil => rfl
    | cons x xs => simp at hl
  simp [this]

theorem isPrefixOf_antisymm {p q : Path} (h1 : p.isPrefixOf q = true)
    (h2 : q.isPrefixOf p = true) : p = q := by
  apply eq_of_isPrefixOf_le_length h1
  rw [isPrefixOf_iff_exists] at h2
  obtain ⟨b, hb⟩ := h2
  rw [hb]
  simp

theorem isPrefixOf_cancel (p a b : Path) :
    (p ++ a).isPrefixOf (p ++ b) = a.isPrefixOf b := by
  induction p with
  | nil => simp
  | cons x xs ih => simpa [List.isPrefixOf] using ih

theorem take_isPrefixOf (q : Path) (n : Nat) : (q.take n).isPrefixOf q = true := by
  rw [isPrefixOf_iff_exists]
  exact ⟨q.drop n, (List.take_append_drop n q).symm⟩

theorem isPrefixOf_total {p q r : Path} (h1 : p.isPrefixOf r = true)
    (h2 : q.isPrefixOf r = true) :
    p.isPrefixOf q = true ∨ q.isPrefixOf p = true := by
  rw [isPrefixOf_iff_exists] at h1 h2
  obtain ⟨a, ha⟩ := h1
  obtain ⟨b, hb⟩ := h2
  have hp : r.take p.length = p := by rw [ha]; exact List.take_left ..
  have hq : r.take q.length = q := by rw [hb]; exact List.take_left ..
  rcases Nat.le_total p.length q.length with hl | hl
  · left
    have hx : q.take p.length = p := by
      rw [← hq, List.take_take, Nat.min_eq_left hl, hp]
    rw [← hx]
    exact take_isPrefixOf q p.length
  · right
    have hx : p.take q.length = q := by
      rw [← hp, List.take_take, Nat.min_eq_left hl, hq]
    rw [← hx]
    exact take_isPrefixOf p q.length

theorem append_cons_not_isPrefixOf (p : Path) (x : String) (r : Path) :
    (p ++ x :: r).isPrefixOf p = false := by
  rw [Bool.eq_false_iff]
  intro h'
  rw [isPrefixOf_iff_exists] at h'
  obtain ⟨s, hs⟩ := h'
  have := congrArg List.length hs
  simp at this

theorem ne_append_cons (p : Path) (x : String) (r : Path) :
    p ≠ p ++ x :: r := by
  intro h
  have := congrArg List.length h
  simp at this

theorem sibling_not_isPrefixOf {a b : String} (p : Path) (ra rb : Path)
    (hab : a ≠ b) : (p ++ a :: ra).isPrefixOf (p ++ b :: rb) = false := by
  rw [Bool.eq_false_iff]
  intro h'
  rw [isPrefixOf_cancel, isPrefixOf_iff_exists] at h'
  obtain ⟨s, hs⟩ := h'
  injection hs with h1 _
  exact hab h1.symm

theorem append_singleton_inj {p q : Path} {a : String}
    (h : p ++ [a] = q ++ [a]) : p = q := by
  have := congrArg (fun l => List.dropLast l) h
  simpa using this

theorem append_singleton_ne {p q : Path} {a b : String} (hab : a ≠ b) :
    p ++ [a] ≠ q ++ [b] := by
  intro h
  have := congrArg (fun l => l.getLast?) h
  simp [List.getLast?_concat] at this
  exact hab this

/-! ### Filesystem model -/

structure FileData where
  data : String
  size : Nat
  mtime : Int
deriving Repr, DecidableEq

structure FSState where
  files : List (Path × FileData)
  dirs : List Path
deriving Repr, DecidableEq

/-- Model of `fs.existsSync p`: a path exists when some file or explicitly
created directory lives at or below it. -/
def existsPath (fs : FSState) (p : Path) : Bool :=
  fs.dirs.any (fun d => p.isPrefixOf d) ||
    fs.files.any (fun f => p.isPrefixOf f.1)

/-- Model of `dirent.isDirectory()` for the entry at path `q`: something
exists strictly below `q`, or `q` was explicitly created as a directory. -/
def isDirAt (fs : FSState) (q : Path) : Bool :=
  fs.dirs.any (fun d => q.isPrefixOf d) ||
    fs.files.any (fun f => q.isPrefixOf f.1 && !(decide (f.1 = q)))

/-- The name under which `q` appears in a directory listing of `p`
(`none` when `q` is not strictly below `p`). -/
def childName? (p q : Path) : Option String :=
  if p.isPrefixOf q then (q.drop p.length).head? else none

/-- Model of `fs.readdir p` / `fs.readdirSync p`: the deduplicated list of
names of immediate children of `p`. -/
def childNames (fs : FSState) (p : Path) : List String :=
  ((fs.files.filterMap fun f => childName? p f.1) ++
    (fs.dirs.filterMap fun d => childName? p d)).dedup

/-- The content of the file stored at exactly `p`. -/
def fileAt (fs : FSState) (p : Path) : Option FileData :=
  (fs.files.find? (fun f => decide (f.1 = p))).map Prod.snd

/-- Model of `ensureDir` (path-utils.ts): `mkdirSync recursive` when the
path does not exist yet. -/
def ensureDir (fs : FSState) (p : Path) : FSState :=
  if existsPath fs p then fs else ⟨fs.files, p :: fs.dirs⟩

/-- Model of `removeDir` (file-ops.ts), i.e. `fs.rm recursive+force`:
drop every entry at or below `p`. -/
def removeDir (fs : FSState) (p : Path) : FSState :=
  ⟨fs.files.filter (fun f => !(p.isPrefixOf f.1)),
   fs.dirs.filter (fun d => !(p.isPrefixOf d))⟩

/-- Model of `fs.unlinkSync p` on a file: drop the file entry at `p`. -/
def removeFile (fs : FSState) (p : Path) : FSState :=
  ⟨fs.files.filter (fun f => !(decide (f.1 = p))), fs.dirs⟩

/-- Model of `fs.promises.cp src dest (recursive, force)`: every entry at
or below `src` is duplicated at the corresponding path below `dest`,
shadowing (overwriting) previous entries of the same path. -/
def cpTree (fs : FSState) (src dest : Path) : FSState :=
  ⟨(fs.files.filterMap fun f =>
      if src.isPrefixOf f.1 then some (dest ++ f.1.drop src.length, f.2)
      else none) ++ fs.files,
   (fs.dirs.filterMap fun d =>
      if src.isPrefixOf d then some (dest ++ d.drop src.length) else none)
    ++ fs.dirs⟩

/-- Model of `getDirectorySize` (file-ops.ts): sum of the `stat` sizes of
all files strictly below `p` (0 for a missing directory). -/
def getDirectorySize (fs : FSState) (p : Path) : Nat :=
  ((fs.files.filter fun f => p.isPrefixOf f.1 && !(decide (f.1 = p))).map
    (fun f => f.2.size)).sum

/-! ### path-utils.ts -/

/-- Model of `normalizePath`: the identity on absolute paths (the source
only calls `path.resolve` on relative inputs). -/
def normalizePath (p : Path) : Path := p

/-- Lower-casing of one segment: `String.toLower` with its character map
written out (so that the kernel can evaluate it on literals). -/
def segLower (s : String) : String := String.mk (s.data.map Char.toLower)

/-- Segment-wise lower-casing, modelling `path.resolve(x).toLowerCase()`. -/
def pathLower (p : Path) : Path := p.map segLower

/-- Model of `isSubdirectory` (path-utils.ts): after lower-casing and
appending a separator, the parent string is a prefix of the child string;
on segment lists this is `List.isPrefixOf` of the lowered paths (equality
included, exactly as in the source). -/
def isSubdirectory (parentPath childPath : Path) : Bool :=
  (pathLower parentPath).isPrefixOf (pathLower childPath)

/-- Model of `pathsConflict` (path-utils.ts). -/
def pathsConflict (source dest : Path) : Option String :=
  if pathLower source = pathLower dest then none
  else if isSubdirectory source dest then
    some "目标路径不能是当前路径的子目录"
  else if isSubdirectory dest source then
    some "当前路径不能是目标路径的子目录"
  else none

/-! ### storage-state.ts -/

/-- Model of the persisted `StorageConfig` record.  The optional string
fields are modelled as `Option Path`; `none` stands for an absent, empty
or whitespace-only string (the source always guards them with
`?.trim()` truthiness checks before use). -/
structure StorageConfig where
  basePath : Option Path
  projectPath : Option Path
  mediaPath : Option Path
  autoCleanEnabled : Bool
  autoCleanDays : Nat
deriving Repr, DecidableEq

/-- A world: the filesystem plus the in-memory config.  `saveStorageConfig`
writes the config file outside the modelled data tree and swallows its own
errors, so persistence is not represented. -/
structure World where
  fs : FSState
  config : StorageConfig
deriving Repr, DecidableEq

/-- Model of `getStorageBasePath` (path-utils.ts); `userData` is the
platform default application-data directory `app.getPath('userData')`. -/
def getStorageBasePath (cfg : StorageConfig) (userData : Path) : Path :=
  match cfg.basePath with
  | some configured => normalizePath configured
  | none =>
    match cfg.projectPath with
    | some legacyProject => (normalizePath legacyProject).dropLast
    | none => userData

/-- Model of `getCacheDirs` (path-utils.ts). -/
def getCacheDirs (userData : Path) : List Path :=
  [userData ++ ["Cache"], userData ++ ["Code Cache"], userData ++ ["GPUCache"]]

/-! ### validateDataDirInternal (storage-manager-handlers.ts)

The source function only performs `existsSync` and `readdirSync` calls.
To make the read-only claim C8 a statement rather than a convention, the
transcription threads the filesystem state through every primitive call
and returns the final state alongside the result. -/

structure ValidationResult where
  valid : Bool
  error : Option String
  projectCount : Option Nat
  mediaCount : Option Nat
deriving Repr, DecidableEq

/-- Model of `fs.existsSync` as a state-threaded primitive. -/
def existsSyncP (fs : FSState) (p : Path) : Bool × FSState :=
  (existsPath fs p, fs)

/-- Model of `fs.readdirSync` as a state-threaded primitive. -/
def readdirP (fs : FSState) (p : Path) : List String × FSState :=
  (childNames fs p, fs)

/-- Model of `fs.readdirSync (withFileTypes)` restricted to the directory
entries, as a state-threaded primitive. -/
def readdirDirsP (fs : FSState) (p : Path) : List String × FSState :=
  ((childNames fs p).filter (fun n => isDirAt fs (p ++ [n])), fs)

/-- Transcription of `validateDataDirInternal`.  The argument is the raw
handler string: `none` models the empty string rejected by the first
guard. -/
def validateDataDirInternal (fs : FSState) (dirPath : Option Path) :
    ValidationResult × FSState :=
  match dirPath with
  | none => (⟨false, some "路径不能为空", none, none⟩, fs)
  | some dp =>
    let target := normalizePath dp
    let (ex, fs) := existsSyncP fs target
    if !ex then (⟨false, some "目录不存在", none, none⟩, fs)
    else
      let projectsDir := target ++ ["projects"]
      let mediaDir := target ++ ["media"]
      let (hasProj, fs) := existsSyncP fs projectsDir
      let (projectCount, fs) :=
        if hasProj then
          let (files, fs) := readdirP fs projectsDir
          let flatCount := (files.filter (fun f => f.endsWith ".json")).length
          let perProjectDir := projectsDir ++ ["_p"]
          let (hasPer, fs) := existsSyncP fs perProjectDir
          if hasPer then
            let (projectDirs, fs) := readdirDirsP fs perProjectDir
            let dirCount :=
              (projectDirs.filter (fun n => !(n.startsWith "."))).length
            if dirCount > 0 then (Nat.max flatCount dirCount, fs)
            else (flatCount, fs)
          else (flatCount, fs)
        else (0, fs)
      let (hasMedia, fs) := existsSyncP fs mediaDir
      let (mediaCount, fs) :=
        if hasMedia then
          let (entries, fs) := readdirP fs mediaDir
          (entries.length, fs)
        else (0, fs)
      if projectCount = 0 && mediaCount = 0 then
        (⟨false, some "该目录不包含有效的数据（需要 projects/ 或 media/ 子目录）",
          none, none⟩, fs)
      else (⟨true, none, some projectCount, some mediaCount⟩, fs)

/-! ### file-ops.ts: copies with failure injection, cache pruning -/

/-- Result record of the link/move/export handlers. -/
structure OpResult where
  success : Bool
  path : Option Path
  error : Option String
deriving Repr, DecidableEq

/-- Result record of the import handler. -/
structure ImportResult where
  success : Bool
  error : Option String
deriving Repr, DecidableEq

/-- Failure-injection oracle: `cpFail src dest = true` makes the
`fs.promises.cp src dest` call throw. -/
abbrev CpOracle := Path → Path → Bool

/-- A sequence of raw `fs.promises.cp` calls (the per-entry loops of the
move handler); aborts at the first injected failure, yielding the
filesystem as mutated so far. -/
def cpSeq (cpFail : CpOracle) (fs : FSState) (calls : List (Path × Path)) :
    Except FSState FSState :=
  match calls with
  | [] => .ok fs
  | (s, d) :: rest =>
    if cpFail s d then .error fs
    else cpSeq cpFail (cpTree fs s d) rest

/-- Model of `copyDir` (file-ops.ts): `ensureDir destination` followed by a
recursive overwrite copy. -/
def copyDir (cpFail : CpOracle) (fs : FSState) (src dest : Path) :
    Except FSState FSState :=
  let fs1 := ensureDir fs dest
  if cpFail src dest then .error fs1 else .ok (cpTree fs1 src dest)

/-- A `copyDir` call whose failure the source swallows
with a trailing catch handler. -/
def copyDirSwallow (cpFail : CpOracle) (fs : FSState) (src dest : Path) :
    FSState :=
  match copyDir cpFail fs src dest with
  | .ok fs' => fs'
  | .error fs' => fs'

/-- The file-age test of `deleteOldFiles`: a file strictly below the
visited directory whose `stat` mtime is before the cutoff. -/
def oldIn (dirPath : Path) (cutoffTime : Int) (f : Path × FileData) : Bool :=
  dirPath.isPrefixOf f.1 && !(decide (f.1 = dirPath)) &&
    decide (f.2.mtime < cutoffTime)

/-- Model of `deleteOldFiles` (file-ops.ts): unlink every file strictly
below `dirPath` whose mtime is before `cutoffTime`, then remove bottom-up
every directory strictly below `dirPath` whose listing became empty; the
returned number is the sum of the unlinked sizes. -/
def deleteOldFiles (fs : FSState) (dirPath : Path) (cutoffTime : Int) :
    FSState × Nat :=
  let kept := fs.files.filter (fun f => !(oldIn dirPath cutoffTime f))
  let keptDirs := fs.dirs.filter (fun d =>
    !(dirPath.isPrefixOf d && !(decide (d = dirPath)) &&
      !(kept.any (fun f => d.isPrefixOf f.1))))
  (⟨kept, keptDirs⟩,
   ((fs.files.filter (oldIn dirPath cutoffTime)).map (fun f => f.2.size)).sum)

/-- The wholesale branch of `clearCache`: for each cache directory in
order, measure, `removeDir`, `ensureDir`. -/
def clearCacheAll (fs : FSState) (dirs : List Path) : FSState × Nat :=
  dirs.foldl
    (fun acc dir =>
      (ensureDir (removeDir acc.1 dir) dir, acc.2 + getDirectorySize acc.1 dir))
    (fs, 0)

/-- The age-threshold branch of `clearCache`. -/
def clearCacheOld (fs : FSState) (dirs : List Path) (cutoff : Int) :
    FSState × Nat :=
  dirs.foldl
    (fun acc dir =>
      let r := deleteOldFiles acc.1 dir cutoff
      (r.1, acc.2 + r.2))
    (fs, 0)

/-- Model of `clearCache(olderThanDays?)` (file-ops.ts); `now` is
`Date.now()`.  The age branch runs only when `olderThanDays` is truthy
and positive. -/
def clearCache (fs : FSState) (userData : Path) (olderThanDays : Option Int)
    (now : Int) : FSState × Nat :=
  let dirs := getCacheDirs userData
  match olderThanDays with
  | some days =>
    if 0 < days then clearCacheOld fs dirs (now - days * 24 * 60 * 60 * 1000)
    else clearCacheAll fs dirs
  | none => clearCacheAll fs dirs

/-! ### The storage-move-data handler -/

/-- Transcription of the `storage-move-data` handler.  `errMsg` is the
description of the injected copy error (`String(error)` in the catch
block).  The `startsWith(userData)` guard of the source is a string-level
check; on segment paths it is modelled by `List.isPrefixOf`. -/
def moveData (cpFail : CpOracle) (errMsg : String) (w : World)
    (userData : Path) (newPath : Option Path) : World × OpResult :=
  match newPath with
  | none => (w, ⟨false, none, some "路径不能为空"⟩)
  | some np =>
    let target := normalizePath np
    let currentBase := getStorageBasePath w.config userData
    if currentBase = target then (w, ⟨true, some currentBase, none⟩)
    else
      match pathsConflict currentBase target with
      | some conflictError => (w, ⟨false, none, some conflictError⟩)
      | none =>
        let targetProjectsDir := target ++ ["projects"]
        let targetMediaDir := target ++ ["media"]
        let fs1 := ensureDir (ensureDir w.fs targetProjectsDir) targetMediaDir
        let currentProjectsDir := currentBase ++ ["projects"]
        let fs2 := ensureDir fs1 currentProjectsDir
        let projRes :=
          if existsPath fs2 currentProjectsDir then
            cpSeq cpFail fs2
              ((childNames fs2 currentProjectsDir).map fun file =>
                (currentProjectsDir ++ [file], targetProjectsDir ++ [file]))
          else .ok fs2
        match projRes with
        | .error fsE => ({ w with fs := fsE }, ⟨false, none, some errMsg⟩)
        | .ok fs3 =>
          let currentMediaDir := currentBase ++ ["media"]
          let fs4 := ensureDir fs3 currentMediaDir
          let mediaRes :=
            if existsPath fs4 currentMediaDir then
              cpSeq cpFail fs4
                ((childNames fs4 currentMediaDir).map fun file =>
                  (currentMediaDir ++ [file], targetMediaDir ++ [file]))
            else .ok fs4
          match mediaRes with
          | .error fsE => ({ w with fs := fsE }, ⟨false, none, some errMsg⟩)
          | .ok fs5 =>
            let cfg := { w.config with
              basePath := some target
              projectPath := none
              mediaPath := none }
            let fs6 := if userData.isPrefixOf currentProjectsDir then fs5
              else removeDir fs5 currentProjectsDir
            let fs7 := if userData.isPrefixOf currentMediaDir then fs6
              else removeDir fs6 currentMediaDir
            (⟨fs7, cfg⟩, ⟨true, some target, none⟩)

/-! ### The storage-import-data handler -/

/-- One backup copy of the import's try block (lines guarded by
`hasX && existsSync && files.length > 0`): copy the live root `cur` into
the backup location `bdir`. -/
def importBackupStep (cpFail : CpOracle) (has : Bool) (fs : FSState)
    (cur bdir : Path) : Except FSState FSState :=
  if has && existsPath fs cur && !(childNames fs cur).isEmpty then
    copyDir cpFail fs cur bdir
  else .ok fs

/-- One swap of the import's try block: delete the live root `cur`
(failure swallowed), then copy the source tree `src` into its place. -/
def importSwapStep (cpFail : CpOracle) (has : Bool) (fs : FSState)
    (src cur : Path) : Except FSState FSState :=
  if has then copyDir cpFail (removeDir fs cur) src cur else .ok fs

/-- End of the import's try block: clear the migration marker if present
(`existsSync` + `unlinkSync`), then delete the backup snapshot.
`unlinkSync` succeeds only on a regular file: when the existing entry at
the marker path is a directory it throws (EISDIR), and the import's catch
handler takes over. -/
def importFinish (fs : FSState) (flag backupDir : Path) :
    Except FSState FSState :=
  if existsPath fs flag then
    if (fileAt fs flag).isSome then
      .ok (removeDir (removeFile fs flag) backupDir)
    else .error fs
  else .ok (removeDir fs backupDir)

/-- The import's catch block: restore each live root from the backup
snapshot when that part of the backup exists (restore failures are
swallowed), then delete the backup snapshot. -/
def importRollback (cpFail : CpOracle) (fs : FSState)
    (currentProjectsDir currentMediaDir backupDir : Path) : FSState :=
  let fsR1 :=
    if existsPath fs (backupDir ++ ["projects"]) then
      copyDirSwallow cpFail (removeDir fs currentProjectsDir)
        (backupDir ++ ["projects"]) currentProjectsDir
    else fs
  let fsR2 :=
    if existsPath fsR1 (backupDir ++ ["media"]) then
      copyDirSwallow cpFail (removeDir fsR1 currentMediaDir)
        (backupDir ++ ["media"]) currentMediaDir
    else fsR1
  removeDir fsR2 backupDir

/-- Transcription of the `storage-import-data` handler.  `backupDir`
models the fresh `os.tmpdir()/moyin-backup-<timestamp>` directory; the
rollback's restore copies carry their own catch handler, so their
failures are swallowed; the rethrown original error surfaces as a
failure result with description `errMsg` in the outer catch. -/
def importData (cpFail : CpOracle) (errMsg : String) (w : World)
    (userData : Path) (sourcePath : Option Path) (backupDir : Path) :
    World × ImportResult :=
  match sourcePath with
  | none => (w, ⟨false, some "路径不能为空"⟩)
  | some sp =>
    let source := normalizePath sp
    let sourceProjectsDir := source ++ ["projects"]
    let sourceMediaDir := source ++ ["media"]
    let hasProjects := existsPath w.fs sourceProjectsDir
    let hasMedia := existsPath w.fs sourceMediaDir
    if !hasProjects && !hasMedia then
      (w, ⟨false, some "源目录不包含有效数据（需要 projects/ 或 media/ 子目录）"⟩)
    else
      let currentBase := getStorageBasePath w.config userData
      let currentProjectsDir := currentBase ++ ["projects"]
      let currentMediaDir := currentBase ++ ["media"]
      let fs0 := ensureDir (ensureDir w.fs currentProjectsDir) currentMediaDir
      let tryResult : Except FSState FSState :=
        (importBackupStep cpFail hasProjects fs0 currentProjectsDir
          (backupDir ++ ["projects"])).bind fun fs1 =>
        (importBackupStep cpFail hasMedia fs1 currentMediaDir
          (backupDir ++ ["media"])).bind fun fs2 =>
        (importSwapStep cpFail hasProjects fs2 sourceProjectsDir
          currentProjectsDir).bind fun fs3 =>
        (importSwapStep cpFail hasMedia fs3 sourceMediaDir
          currentMediaDir).bind fun fs4 =>
        importFinish fs4 (currentProjectsDir ++ ["_p", "_migrated.json"])
          backupDir
      match tryResult with
      | .ok fsF => ({ w with fs := fsF }, ⟨true, none⟩)
      | .error fsE =>
        let fsR :=
          importRollback cpFail fsE currentProjectsDir currentMediaDir backupDir
        ({ w with fs := fsR }, ⟨false, some errMsg⟩)

/-! ### General list helpers -/

theorem find?_filter_eq (l : List α) (p q : α → Bool) :
    (l.filter q).find? p = l.find? (fun a => q a && p a) := by
  induction l with
  | nil => rfl
  | cons x xs ih =>
    by_cases hq : q x
    · by_cases hp : p x
      · simp [List.filter_cons, List.find?_cons, hq, hp]
      · simp [List.filter_cons, List.find?_cons, hq, hp, ih]
    · simp [List.filter_cons, List.find?_cons, hq, ih]

theorem find?_congr_eq {l : List α} {p q : α → Bool}
    (h : ∀ a ∈ l, p a = q a) : l.find? p = l.find? q := by
  induction l with
  | nil => rfl
  | cons x xs ih =>
    have hx := h x (List.mem_cons_self x xs)
    cases hpx : p x
    · have hqx : q x = false := by rw [← hx, hpx]
      rw [List.find?_cons_of_neg _ (by simp [hpx]),
        List.find?_cons_of_neg _ (by simp [hqx])]
      exact ih (fun a ha => h a (List.mem_cons_of_mem x ha))
    · have hqx : q x = true := by rw [← hx, hpx]
      rw [List.find?_cons_of_pos _ hpx, List.find?_cons_of_pos _ hqx]

theorem any_filter_eq (l : List α) (p q : α → Bool) :
    (l.filter q).any p = l.any (fun a => q a && p a) := by
  induction l with
  | nil => rfl
  | cons x xs ih =>
    by_cases hq : q x
    · simp [List.filter_cons, hq, ih]
    · simp [List.filter_cons, hq, ih]

theorem any_congr_eq {l : List α} {p q : α → Bool}
    (h : ∀ a ∈ l, p a = q a) : l.any p = l.any q := by
  induction l with
  | nil => rfl
  | cons x xs ih =>
    simp only [List.any_cons]
    rw [h x (List.mem_cons_self x xs),
      ih (fun a ha => h a (List.mem_cons_of_mem x ha))]

/-- A copy sequence with no injected failure performs all its copies. -/
theorem cpSeq_noFail (fs : FSState) (calls : List (Path × Path)) :
    cpSeq (fun _ _ => false) fs calls =
      .ok (calls.foldl (fun a c => cpTree a c.1 c.2) fs) := by
  induction calls generalizing fs with
  | nil => rfl
  | cons c rest ih =>
    cases c
    simp [cpSeq, ih]

/-! ### Claim C5 -/

/-- C5: `getStorageBasePath` is total and deterministic with the
three-tier fallback: a set `basePath` is normalized and returned; else a
set legacy `projectPath` yields its parent directory; else the platform
default application-data directory is returned.  In particular with
`basePath` unset and `projectPath = "/data/old/projects"` the result is
`/data/old`. -/
theorem C5_getStorageBasePath_three_tier :
    (∀ (p : Path) (pp mp : Option Path) (ae : Bool) (ad : Nat) (u : Path),
      getStorageBasePath ⟨some p, pp, mp, ae, ad⟩ u = normalizePath p) ∧
    (∀ (q : Path) (mp : Option Path) (ae : Bool) (ad : Nat) (u : Path),
      getStorageBasePath ⟨none, some q, mp, ae, ad⟩ u =
        (normalizePath q).dropLast) ∧
    (∀ (mp : Option Path) (ae : Bool) (ad : Nat) (u : Path),
      getStorageBasePath ⟨none, none, mp, ae, ad⟩ u = u) ∧
    getStorageBasePath ⟨none, some ["data", "old", "projects"], none,
      false, 30⟩ ["default", "appdata"] = ["data", "old"] :=
  ⟨fun _ _ _ _ _ _ => rfl, fun _ _ _ _ _ => rfl, fun _ _ _ _ => rfl, rfl⟩

/-! ### Claim C8 -/

/-- C8: `validateDataDirInternal` is a pure read-only diagnostic: it
returns the filesystem state unchanged through every primitive call, and
a second invocation on the state left by the first returns the identical
result. -/
theorem C8_validate_read_only (fs : FSState) (dirPath : Option Path) :
    (validateDataDirInternal fs dirPath).2 = fs ∧
    (validateDataDirInternal (validateDataDirInternal fs dirPath).2
        dirPath).1 = (validateDataDirInternal fs dirPath).1 := by
  have h2 : (validateDataDirInternal fs dirPath).2 = fs := by
    cases dirPath with
    | none => rfl
    | some dp =>
      dsimp only [validateDataDirInternal, existsSyncP, readdirP, readdirDirsP]
      repeat' split
      all_goals rfl
  exact ⟨h2, by rw [h2]⟩

/-! ### Claim C10 -/

/-- C10: `clearCache` treats a non-positive (or absent) `olderThanDays`
as "no threshold": the age branch requires a truthy value greater than 0,
so passing 0 (or any non-positive value) performs the wholesale
delete-and-recreate of every cache directory. -/
theorem C10_clearCache_nonpositive_is_wholesale (fs : FSState)
    (userData : Path) (days now : Int) (h : days ≤ 0) :
    clearCache fs userData (some days) now = clearCache fs userData none now := by
  dsimp only [clearCache]
  rw [if_neg (by omega)]

theorem C10_clearCache_nonpositive_is_wholesale_witness :
    (0 : Int) ≤ 0 ∧
    clearCache ⟨[([ "u", "Cache", "f" ], ⟨"x", 3, 0⟩)], []⟩ ["u"] (some 0) 99 =
      clearCache ⟨[([ "u", "Cache", "f" ], ⟨"x", 3, 0⟩)], []⟩ ["u"] none 99 :=
  ⟨by decide,
   C10_clearCache_nonpositive_is_wholesale
     ⟨[([ "u", "Cache", "f" ], ⟨"x", 3, 0⟩)], []⟩ ["u"] 0 99 (by decide)⟩

/-! ### Claim C7 -/

/-- C7: `moveData` is a no-op returning success when the candidate path
equals the resolved base path: the world (filesystem and config) is
returned unchanged, no copy or delete happens, and the result carries the
current base path. -/
theorem C7_move_idempotent_at_base (cpFail : CpOracle) (errMsg : String)
    (w : World) (userData : Path) :
    moveData cpFail errMsg w userData
        (some (getStorageBasePath w.config userData)) =
      (w, ⟨true, some (getStorageBasePath w.config userData), none⟩) := by
  unfold moveData normalizePath
  simp

/-! ### Claim C2 -/

/-- C2: whenever `moveData` returns a failure result (in particular for
every failure injected during the copy phase), the Config Store is
unchanged: the config merge happens only after both copy loops have fully
succeeded. -/
theorem C2_move_failure_keeps_config (cpFail : CpOracle) (errMsg : String)
    (w : World) (userData : Path) (newPath : Option Path)
    (h : (moveData cpFail errMsg w userData newPath).2.success = false) :
    (moveData cpFail errMsg w userData newPath).1.config = w.config := by
  cases newPath with
  | none => rfl
  | some np =>
    revert h
    dsimp only [moveData]
    split
    · intro h
      simp at h
    · split
      · intro _
        rfl
      · split
        · intro _
          rfl
        · split
          · intro _
            rfl
          · intro h
            simp at h

theorem C2_move_failure_keeps_config_witness :
    (moveData (fun _ _ => false) "e" ⟨⟨[], []⟩, ⟨some ["b"], none, none,
        false, 30⟩⟩ ["u"] none).2.success = false ∧
    (moveData (fun _ _ => false) "e" ⟨⟨[], []⟩, ⟨some ["b"], none, none,
        false, 30⟩⟩ ["u"] none).1.config =
      (⟨⟨[], []⟩, ⟨some ["b"], none, none, false, 30⟩⟩ : World).config :=
  ⟨by decide,
   C2_move_failure_keeps_config (fun _ _ => false) "e"
     ⟨⟨[], []⟩, ⟨some ["b"], none, none, false, 30⟩⟩ ["u"] none (by decide)⟩

/-! ### Claim C4 -/

/-- C4: `moveData` fails with the corresponding `PathConflict` error and
leaves the world untouched when the target is a strict descendant of the
current base (`SourceIsAncestor`: "目标路径不能是当前路径的子目录") or the
current base is a strict descendant of the target (`DestIsAncestor`:
"当前路径不能是目标路径的子目录"); the check fires before any copy or
delete. -/
theorem C4_move_path_conflict (cpFail : CpOracle) (errMsg : String) :
    (∀ (w : World) (userData : Path) (x : String) (rest : Path),
      moveData cpFail errMsg w userData
          (some (getStorageBasePath w.config userData ++ x :: rest)) =
        (w, ⟨false, none, some "目标路径不能是当前路径的子目录"⟩)) ∧
    (∀ (fs : FSState) (pp mp : Option Path) (ae : Bool) (ad : Nat)
        (p : Path) (x : String) (rest : Path) (userData : Path),
      moveData cpFail errMsg ⟨fs, ⟨some (p ++ x :: rest), pp, mp, ae, ad⟩⟩
          userData (some p) =
        (⟨fs, ⟨some (p ++ x :: rest), pp, mp, ae, ad⟩⟩,
          ⟨false, none, some "当前路径不能是目标路径的子目录"⟩)) := by
  constructor
  · intro w userData x rest
    have h1 : pathLower (getStorageBasePath w.config userData ++ x :: rest) =
        pathLower (getStorageBasePath w.config userData) ++
          segLower x :: pathLower rest := by
      simp [pathLower]
    have hconf : pathsConflict (getStorageBasePath w.config userData)
        (getStorageBasePath w.config userData ++ x :: rest) =
        some "目标路径不能是当前路径的子目录" := by
      unfold pathsConflict isSubdirectory
      rw [h1, if_neg (ne_append_cons _ _ _),
        if_pos (isPrefixOf_append _ _)]
    dsimp only [moveData, normalizePath]
    rw [if_neg (ne_append_cons _ x rest), hconf]
  · intro fs pp mp ae ad p x rest userData
    have h1 : pathLower (p ++ x :: rest) =
        pathLower p ++ segLower x :: pathLower rest := by
      simp [pathLower]
    have hsub : isSubdirectory (p ++ x :: rest) p = false := by
      unfold isSubdirectory
      rw [h1]
      exact append_cons_not_isPrefixOf _ _ _
    have hconf : pathsConflict (p ++ x :: rest) p =
        some "当前路径不能是目标路径的子目录" := by
      unfold pathsConflict
      rw [if_neg (fun h => Ne.symm (ne_append_cons (pathLower p)
          (segLower x) (pathLower rest)) (h1 ▸ h)),
        if_neg (by simp [hsub])]
      unfold isSubdirectory
      rw [h1, if_pos (isPrefixOf_append _ _)]
    dsimp only [moveData, normalizePath, getStorageBasePath]
    rw [if_neg (Ne.symm (ne_append_cons p x rest)), hconf]

/-! ### Claim C9 -/

/-- A guarded copy loop with no injected failure always succeeds. -/
theorem ifCpSeq_noFail_ok (c : Prop) [Decidable c] (fs : FSState)
    (calls : List (Path × Path)) :
    (if c then cpSeq (fun _ _ => false) fs calls else Except.ok fs) =
      Except.ok (if c then
        calls.foldl (fun a x => cpTree a x.1 x.2) fs else fs) := by
  by_cases h : c
  · rw [if_pos h, if_pos h, cpSeq_noFail]
  · rw [if_neg h, if_neg h]

/-- C9: path conflict detection lower-cases both paths, while the no-op
check compares the normalized target to the current base case-sensitively;
a target differing from the current base only in letter case therefore
neither short-circuits nor conflicts, and the move proceeds through the
copy phase to the config update. -/
theorem C9_move_case_only_target_proceeds (errMsg : String) (w : World)
    (userData : Path) (t : Path)
    (hlow : pathLower t = pathLower (getStorageBasePath w.config userData))
    (hne : t ≠ getStorageBasePath w.config userData) :
    pathsConflict (getStorageBasePath w.config userData) t = none ∧
    (moveData (fun _ _ => false) errMsg w userData (some t)).2 =
      ⟨true, some t, none⟩ ∧
    (moveData (fun _ _ => false) errMsg w userData (some t)).1.config =
      { w.config with
        basePath := some t
        projectPath := none
        mediaPath := none } := by
  have hconf : pathsConflict (getStorageBasePath w.config userData) t = none := by
    unfold pathsConflict
    rw [if_pos hlow.symm]
  refine ⟨hconf, ?_⟩
  have hgoal : ∃ fsX, moveData (fun _ _ => false) errMsg w userData (some t) =
      (⟨fsX, { w.config with
        basePath := some t
        projectPath := none
        mediaPath := none }⟩, ⟨true, some t, none⟩) := by
    dsimp only [moveData, normalizePath]
    rw [if_neg (Ne.symm hne), hconf]
    dsimp only []
    rw [ifCpSeq_noFail_ok]
    dsimp only []
    rw [ifCpSeq_noFail_ok]
    dsimp only []
    exact ⟨_, rfl⟩
  obtain ⟨fsX, hgoal⟩ := hgoal
  rw [hgoal]
  exact ⟨rfl, rfl⟩

theorem C9_move_case_only_target_proceeds_witness :
    pathsConflict (getStorageBasePath (⟨some ["A"], none, none, false, 30⟩ :
        StorageConfig) ["u"]) ["a"] = none ∧
    (moveData (fun _ _ => false) "e" ⟨⟨[], []⟩, ⟨some ["A"], none, none,
        false, 30⟩⟩ ["u"] (some ["a"])).2 = ⟨true, some ["a"], none⟩ ∧
    (moveData (fun _ _ => false) "e" ⟨⟨[], []⟩, ⟨some ["A"], none, none,
        false, 30⟩⟩ ["u"] (some ["a"])).1.config =
      { (⟨some ["A"], none, none, false, 30⟩ : StorageConfig) with
        basePath := some ["a"]
        projectPath := none
        mediaPath := none } :=
  C9_move_case_only_target_proceeds "e"
    ⟨⟨[], []⟩, ⟨some ["A"], none, none, false, 30⟩⟩ ["u"] ["a"]
    (by decide) (by decide)

/-! ### Effect lemmas for the filesystem operations -/

theorem filt_congr {l : List α} {p q : α → Bool} (h : ∀ a ∈ l, p a = q a) :
    l.filter p = l.filter q := by
  induction l with
  | nil => rfl
  | cons x xs ih =>
    simp only [List.filter_cons]
    rw [h x (List.mem_cons_self x xs),
      ih (fun a ha => h a (List.mem_cons_of_mem x ha))]

theorem filter_filter_eq (l : List α) (p q : α → Bool) :
    (l.filter p).filter q = l.filter (fun a => p a && q a) := by
  induction l with
  | nil => rfl
  | cons x xs ih =>
    by_cases hp : p x
    · by_cases hq : q x
      · simp [List.filter_cons, hp, hq, ih]
      · simp [List.filter_cons, hp, hq, ih]
    · simp [List.filter_cons, hp, ih]

theorem ensureDir_files (fs : FSState) (p : Path) :
    (ensureDir fs p).files = fs.files := by
  unfold ensureDir
  split <;> rfl

theorem getDirectorySize_ensureDir (fs : FSState) (p q : Path) :
    getDirectorySize (ensureDir fs p) q = getDirectorySize fs q := by
  unfold getDirectorySize
  rw [ensureDir_files]

theorem not_isPrefixOf_of_isPrefixOf_of_not {r r' q : Path}
    (h1 : r.isPrefixOf r' = false) (h2 : r'.isPrefixOf r = false)
    (hq : r.isPrefixOf q = true) : r'.isPrefixOf q = false := by
  cases h : r'.isPrefixOf q
  · rfl
  · rcases isPrefixOf_total hq h with hc | hc
    · simp [hc] at h1
    · simp [hc] at h2

theorem getDirectorySize_removeDir_indep (fs : FSState) {p q : Path}
    (h1 : p.isPrefixOf q = false) (h2 : q.isPrefixOf p = false) :
    getDirectorySize (removeDir fs p) q = getDirectorySize fs q := by
  unfold getDirectorySize removeDir
  rw [filter_filter_eq]
  congr 1
  congr 1
  apply filt_congr
  intro f _
  cases hq : q.isPrefixOf f.1
  · simp [hq]
  · have hp : p.isPrefixOf f.1 = false :=
      not_isPrefixOf_of_isPrefixOf_of_not h2 h1 hq
    simp [hq, hp]

theorem existsPath_removeDir_self (fs : FSState) (p : Path) :
    existsPath (removeDir fs p) p = false := by
  unfold existsPath removeDir
  simp only [any_filter_eq]
  rw [Bool.or_eq_false_iff]
  constructor
  · rw [List.any_eq_false]
    intro d _
    cases h : p.isPrefixOf d <;> simp [h]
  · rw [List.any_eq_false]
    intro f _
    cases h : p.isPrefixOf f.1 <;> simp [h]

theorem existsPath_ensureDir_true (fs : FSState) (p q : Path)
    (h : existsPath fs q = true) : existsPath (ensureDir fs p) q = true := by
  unfold ensureDir
  split
  · exact h
  · unfold existsPath at h ⊢
    dsimp only [List.any_cons]
    rw [Bool.or_assoc, h]
    simp

theorem existsPath_removeDir_indep (fs : FSState) {p q : Path}
    (h1 : p.isPrefixOf q = false) (h2 : q.isPrefixOf p = false) :
    existsPath (removeDir fs p) q = existsPath fs q := by
  unfold existsPath removeDir
  simp only [any_filter_eq]
  congr 1
  · apply any_congr_eq
    intro d _
    cases hq : q.isPrefixOf d
    · simp [hq]
    · have hp : p.isPrefixOf d = false :=
        not_isPrefixOf_of_isPrefixOf_of_not h2 h1 hq
      simp [hq, hp]
  · apply any_congr_eq
    intro f _
    cases hq : q.isPrefixOf f.1
    · simp [hq]
    · have hp : p.isPrefixOf f.1 = false :=
        not_isPrefixOf_of_isPrefixOf_of_not h2 h1 hq
      simp [hq, hp]

theorem existsPath_ensureDir_indep (fs : FSState) {p q : Path}
    (h : q.isPrefixOf p = false) :
    existsPath (ensureDir fs p) q = existsPath fs q := by
  unfold ensureDir
  split
  · rfl
  · unfold existsPath
    dsimp only [List.any_cons]
    rw [h]
    simp

theorem existsPath_step_self (fs : FSState) (r : Path) :
    existsPath (ensureDir (removeDir fs r) r) r = true := by
  rw [ensureDir, if_neg (by simp [existsPath_removeDir_self fs r])]
  unfold existsPath
  dsimp only [List.any_cons]
  rw [isPrefixOf_refl]
  simp

/-! ### Directory-listing emptiness -/

/-- Nothing lives strictly below `p`. -/
def noStrictEntry (fs : FSState) (p : Path) : Prop :=
  (∀ f ∈ fs.files, p.isPrefixOf f.1 = true → f.1 = p) ∧
  (∀ d ∈ fs.dirs, p.isPrefixOf d = true → d = p)

theorem drop_len_eq_nil_iff {p q : Path} (h : p.isPrefixOf q = true) :
    q.drop p.length = [] ↔ q = p := by
  rw [isPrefixOf_iff_exists] at h
  obtain ⟨r, rfl⟩ := h
  rw [List.drop_left]
  constructor
  · rintro rfl
    simp
  · intro hh
    have := congrArg List.length hh
    simp at this
    simp [this]

theorem childName?_eq_none_iff (p q : Path) :
    childName? p q = none ↔ (p.isPrefixOf q = true → q = p) := by
  unfold childName?
  by_cases h : p.isPrefixOf q = true
  · rw [if_pos h, List.head?_eq_none_iff, drop_len_eq_nil_iff h]
    simp [h]
  · rw [if_neg h]
    simp [h]

theorem childNames_eq_nil_iff (fs : FSState) (p : Path) :
    childNames fs p = [] ↔ noStrictEntry fs p := by
  unfold childNames noStrictEntry
  rw [List.dedup_eq_nil, List.append_eq_nil,
    List.filterMap_eq_nil_iff, List.filterMap_eq_nil_iff]
  constructor
  · rintro ⟨hf, hd⟩
    exact ⟨fun f hf' => (childName?_eq_none_iff p f.1).mp (hf f hf'),
      fun d hd' => (childName?_eq_none_iff p d).mp (hd d hd')⟩
  · rintro ⟨hf, hd⟩
    exact ⟨fun f hf' => (childName?_eq_none_iff p f.1).mpr (hf f hf'),
      fun d hd' => (childName?_eq_none_iff p d).mpr (hd d hd')⟩

theorem noStrictEntry_removeDir (fs : FSState) (p q : Path)
    (h : noStrictEntry fs q) : noStrictEntry (removeDir fs p) q := by
  obtain ⟨hf, hd⟩ := h
  constructor
  · intro f hf' hp
    exact hf f (List.mem_filter.mp hf').1 hp
  · intro d hd' hp
    exact hd d (List.mem_filter.mp hd').1 hp

theorem noStrictEntry_ensureDir (fs : FSState) {p q : Path}
    (hpq : q.isPrefixOf p = false) (h : noStrictEntry fs q) :
    noStrictEntry (ensureDir fs p) q := by
  obtain ⟨hf, hd⟩ := h
  unfold ensureDir
  split
  · exact ⟨hf, hd⟩
  · refine ⟨hf, ?_⟩
    intro d hd' hp
    rcases List.mem_cons.mp hd' with rfl | hmem
    · rw [hp] at hpq
      simp at hpq
    · exact hd d hmem hp

theorem noStrictEntry_step_self (fs : FSState) (r : Path) :
    noStrictEntry (ensureDir (removeDir fs r) r) r := by
  rw [ensureDir, if_neg (by simp [existsPath_removeDir_self fs r])]
  constructor
  · intro f hf hp
    have := (List.mem_filter.mp hf).2
    rw [hp] at this
    simp at this
  · intro d hd hp
    rcases List.mem_cons.mp hd with rfl | hmem
    · rfl
    · have := (List.mem_filter.mp hmem).2
      rw [hp] at this
      simp at this

/-! ### The wholesale cache clear on the three cache directories -/

theorem clearCacheAll_three (fs : FSState) (r1 r2 r3 : Path) :
    clearCacheAll fs [r1, r2, r3] =
      (ensureDir (removeDir (ensureDir (removeDir (ensureDir (removeDir fs r1)
          r1) r2) r2) r3) r3,
       0 + getDirectorySize fs r1 +
         getDirectorySize (ensureDir (removeDir fs r1) r1) r2 +
         getDirectorySize (ensureDir (removeDir (ensureDir (removeDir fs r1)
           r1) r2) r2) r3) := rfl

theorem clearCacheAll_sum (fs : FSState) {r1 r2 r3 : Path}
    (h12 : r1.isPrefixOf r2 = false) (h21 : r2.isPrefixOf r1 = false)
    (h13 : r1.isPrefixOf r3 = false) (h31 : r3.isPrefixOf r1 = false)
    (h23 : r2.isPrefixOf r3 = false) (h32 : r3.isPrefixOf r2 = false) :
    (clearCacheAll fs [r1, r2, r3]).2 =
      getDirectorySize fs r1 + getDirectorySize fs r2 +
        getDirectorySize fs r3 := by
  rw [clearCacheAll_three]
  dsimp only
  rw [getDirectorySize_ensureDir, getDirectorySize_removeDir_indep _ h12 h21,
    getDirectorySize_ensureDir, getDirectorySize_removeDir_indep _ h23 h32,
    getDirectorySize_ensureDir, getDirectorySize_removeDir_indep _ h13 h31]
  omega

theorem clearCacheAll_state (fs : FSState) {r1 r2 r3 : Path}
    (h12 : r1.isPrefixOf r2 = false) (h21 : r2.isPrefixOf r1 = false)
    (h13 : r1.isPrefixOf r3 = false) (h31 : r3.isPrefixOf r1 = false)
    (h23 : r2.isPrefixOf r3 = false) (h32 : r3.isPrefixOf r2 = false) :
    ∀ r ∈ [r1, r2, r3],
      existsPath (clearCacheAll fs [r1, r2, r3]).1 r = true ∧
        childNames (clearCacheAll fs [r1, r2, r3]).1 r = [] := by
  intro r hr
  rw [clearCacheAll_three]
  dsimp only
  simp only [List.mem_cons, List.not_mem_nil, or_false] at hr
  rcases hr with rfl | rfl | rfl
  · constructor
    · rw [existsPath_ensureDir_indep _ h13,
        existsPath_removeDir_indep _ h31 h13,
        existsPath_ensureDir_indep _ h12,
        existsPath_removeDir_indep _ h21 h12, existsPath_step_self]
    · rw [childNames_eq_nil_iff]
      exact noStrictEntry_ensureDir _ h13 (noStrictEntry_removeDir _ _ _
        (noStrictEntry_ensureDir _ h12 (noStrictEntry_removeDir _ _ _
          (noStrictEntry_step_self fs r))))
  · constructor
    · rw [existsPath_ensureDir_indep _ h23,
        existsPath_removeDir_indep _ h32 h23, existsPath_step_self]
    · rw [childNames_eq_nil_iff]
      exact noStrictEntry_ensureDir _ h23 (noStrictEntry_removeDir _ _ _
        (noStrictEntry_step_self _ r))
  · constructor
    · rw [existsPath_step_self]
    · rw [childNames_eq_nil_iff]
      exact noStrictEntry_step_self _ r

/-! ### The age-threshold cache clear on the three cache directories -/

theorem clearCacheOld_three (fs : FSState) (r1 r2 r3 : Path) (c : Int) :
    clearCacheOld fs [r1, r2, r3] c =
      ((deleteOldFiles (deleteOldFiles (deleteOldFiles fs r1 c).1 r2 c).1
          r3 c).1,
       0 + (deleteOldFiles fs r1 c).2 +
         (deleteOldFiles (deleteOldFiles fs r1 c).1 r2 c).2 +
         (deleteOldFiles (deleteOldFiles (deleteOldFiles fs r1 c).1 r2 c).1
           r3 c).2) := rfl

theorem oldIn_false_of_sibling {r r' : Path} (c : Int) (f : Path × FileData)
    (h1 : r.isPrefixOf r' = false) (h2 : r'.isPrefixOf r = false)
    (h : oldIn r' c f = true) : oldIn r c f = false := by
  have hr' : r'.isPrefixOf f.1 = true := by
    unfold oldIn at h
    simp only [Bool.and_eq_true] at h
    exact h.1.1
  unfold oldIn
  rw [not_isPrefixOf_of_isPrefixOf_of_not h2 h1 hr']
  rfl

theorem filter_oldIn_sibling (l : List (Path × FileData)) {r r' : Path}
    (c : Int) (h1 : r.isPrefixOf r' = false) (h2 : r'.isPrefixOf r = false) :
    (l.filter (fun f => !(oldIn r c f))).filter (oldIn r' c) =
      l.filter (oldIn r' c) := by
  rw [filter_filter_eq]
  apply filt_congr
  intro f _
  cases h : oldIn r' c f
  · simp [h]
  · rw [oldIn_false_of_sibling c f h1 h2 h]
    simp [h]

theorem clearCacheOld_sum (fs : FSState) {r1 r2 r3 : Path} (c : Int)
    (h12 : r1.isPrefixOf r2 = false) (h21 : r2.isPrefixOf r1 = false)
    (h13 : r1.isPrefixOf r3 = false) (h31 : r3.isPrefixOf r1 = false)
    (h23 : r2.isPrefixOf r3 = false) (h32 : r3.isPrefixOf r2 = false) :
    (clearCacheOld fs [r1, r2, r3] c).2 =
      ((fs.files.filter (oldIn r1 c)).map (fun f => f.2.size)).sum +
        ((fs.files.filter (oldIn r2 c)).map (fun f => f.2.size)).sum +
        ((fs.files.filter (oldIn r3 c)).map (fun f => f.2.size)).sum := by
  rw [clearCacheOld_three]
  dsimp only
  unfold deleteOldFiles
  dsimp only
  rw [filter_oldIn_sibling _ c h12 h21, filter_oldIn_sibling _ c h23 h32,
    filter_oldIn_sibling _ c h13 h31]
  omega

theorem clearCacheOld_files (fs : FSState) (r1 r2 r3 : Path) (c : Int) :
    (clearCacheOld fs [r1, r2, r3] c).1.files =
      fs.files.filter (fun f =>
        !((([r1, r2, r3] : List Path).any
            (fun r => r.isPrefixOf f.1 && !(decide (f.1 = r)))) &&
          decide (f.2.mtime < c))) := by
  rw [clearCacheOld_three]
  dsimp only
  unfold deleteOldFiles
  dsimp only
  rw [filter_filter_eq, filter_filter_eq]
  apply filt_congr
  intro f _
  simp only [List.any_cons, List.any_nil]
  unfold oldIn
  generalize r1.isPrefixOf f.1 = a1
  generalize r2.isPrefixOf f.1 = a2
  generalize r3.isPrefixOf f.1 = a3
  generalize (decide (f.1 = r1) : Bool) = b1
  generalize (decide (f.1 = r2) : Bool) = b2
  generalize (decide (f.1 = r3) : Bool) = b3
  generalize (decide (f.2.mtime < c) : Bool) = m
  revert a1 a2 a3 b1 b2 b3 m
  decide

theorem underA_unique {r r' d : Path}
    (h1 : r.isPrefixOf r' = false) (h2 : r'.isPrefixOf r = false)
    (h : (r.isPrefixOf d && !(decide (d = r))) = true) :
    (r'.isPrefixOf d && !(decide (d = r'))) = false := by
  have hrd : r.isPrefixOf d = true := by
    simp only [Bool.and_eq_true] at h
    exact h.1
  rw [not_isPrefixOf_of_isPrefixOf_of_not h1 h2 hrd]
  rfl

theorem any_under_filter_stable {d rOwn rOther : Path} (c : Int)
    (l : List (Path × FileData)) (hown : rOwn.isPrefixOf d = true)
    (h1 : rOwn.isPrefixOf rOther = false)
    (h2 : rOther.isPrefixOf rOwn = false) :
    (l.filter (fun f => !(oldIn rOther c f))).any
        (fun f => d.isPrefixOf f.1) =
      l.any (fun f => d.isPrefixOf f.1) := by
  rw [any_filter_eq]
  apply any_congr_eq
  intro f _
  cases hdf : d.isPrefixOf f.1
  · simp [hdf]
  · have hrf : rOwn.isPrefixOf f.1 = true := isPrefixOf_trans hown hdf
    have hold : oldIn rOther c f = false := by
      unfold oldIn
      rw [not_isPrefixOf_of_isPrefixOf_of_not h1 h2 hrf]
      rfl
    simp [hdf, hold]

theorem clearCacheOld_dirs (fs : FSState) {r1 r2 r3 : Path} (c : Int)
    (h12 : r1.isPrefixOf r2 = false) (h21 : r2.isPrefixOf r1 = false)
    (h13 : r1.isPrefixOf r3 = false) (h31 : r3.isPrefixOf r1 = false)
    (h23 : r2.isPrefixOf r3 = false) (h32 : r3.isPrefixOf r2 = false) :
    (clearCacheOld fs [r1, r2, r3] c).1.dirs =
      fs.dirs.filter (fun d =>
        !((([r1, r2, r3] : List Path).any
            (fun r => r.isPrefixOf d && !(decide (d = r)))) &&
          !((clearCacheOld fs [r1, r2, r3] c).1.files.any
            (fun f => d.isPrefixOf f.1)))) := by
  rw [clearCacheOld_three]
  dsimp only
  unfold deleteOldFiles
  dsimp only
  rw [filter_filter_eq, filter_filter_eq]
  apply filt_congr
  intro d _
  dsimp only
  simp only [List.any_cons, List.any_nil]
  cases hA1 : r1.isPrefixOf d && !(decide (d = r1))
  · cases hA2 : r2.isPrefixOf d && !(decide (d = r2))
    · cases hA3 : r3.isPrefixOf d && !(decide (d = r3))
      · simp [hA1, hA2, hA3]
      · simp only [hA1, hA2, hA3, Bool.false_and, Bool.not_false,
          Bool.true_and, Bool.and_true, Bool.false_or, Bool.or_false,
          Bool.true_or, Bool.not_not]
    · cases hA3 : r3.isPrefixOf d && !(decide (d = r3))
      · have hr2d : r2.isPrefixOf d = true := by
          simp only [Bool.and_eq_true] at hA2
          exact hA2.1
        simp only [hA1, hA2, hA3, Bool.false_and, Bool.not_false,
          Bool.true_and, Bool.and_true, Bool.false_or, Bool.or_false,
          Bool.true_or, Bool.not_not]
        rw [any_under_filter_stable c _ hr2d h23 h32]
      · have := underA_unique h23 h32 hA2
        rw [this] at hA3
        simp at hA3
  · cases hA2 : r2.isPrefixOf d && !(decide (d = r2))
    · cases hA3 : r3.isPrefixOf d && !(decide (d = r3))
      · have hr1d : r1.isPrefixOf d = true := by
          simp only [Bool.and_eq_true] at hA1
          exact hA1.1
        simp only [hA1, hA2, hA3, Bool.false_and, Bool.not_false,
          Bool.true_and, Bool.and_true, Bool.false_or, Bool.or_false,
          Bool.true_or, Bool.not_not]
        rw [any_under_filter_stable c _ hr1d h13 h31,
          any_under_filter_stable c _ hr1d h12 h21]
      · have := underA_unique h13 h31 hA1
        rw [this] at hA3
        simp at hA3
    · have := underA_unique h12 h21 hA1
      rw [this] at hA2
      simp at hA2

/-! ### Claim C6 -/

theorem cacheSib (u : Path) {a b : String} (hab : a ≠ b) :
    (u ++ [a]).isPrefixOf (u ++ [b]) = false :=
  sibling_not_isPrefixOf u [] [] hab

/-- The deletion predicate of the age-based cache clear: a file strictly
below one of the configured cache directories, older than the cutoff. -/
def cacheOldPred (u : Path) (cutoff : Int) (f : Path × FileData) : Bool :=
  ((getCacheDirs u).any (fun r => r.isPrefixOf f.1 && !(decide (f.1 = r)))) &&
    decide (f.2.mtime < cutoff)

/-- Post-condition of `clearCache` with no age threshold: the returned
number is the total size measured before deletion, and every configured
cache directory is present but empty afterwards. -/
def clearCacheWholesalePost (fs : FSState) (u : Path) (now : Int) : Prop :=
  (clearCache fs u none now).2 =
    ((getCacheDirs u).map (getDirectorySize fs)).sum ∧
  ∀ r ∈ getCacheDirs u,
    existsPath (clearCache fs u none now).1 r = true ∧
    childNames (clearCache fs u none now).1 r = []

/-- Post-condition of `clearCache` with a positive age threshold: exactly
the files older than `now - days` below the cache directories are
deleted (newer files and files elsewhere survive), exactly the
directories strictly below a cache directory with no surviving file below
them are removed, and the returned number is the total size of the
deleted files. -/
def clearCacheAgePost (fs : FSState) (u : Path) (days now : Int) : Prop :=
  (clearCache fs u (some days) now).1.files =
    fs.files.filter (fun f =>
      !(cacheOldPred u (now - days * 24 * 60 * 60 * 1000) f)) ∧
  (clearCache fs u (some days) now).1.dirs =
    fs.dirs.filter (fun d =>
      !(((getCacheDirs u).any
          (fun r => r.isPrefixOf d && !(decide (d = r)))) &&
        !((clearCache fs u (some days) now).1.files.any
          (fun f => d.isPrefixOf f.1)))) ∧
  (clearCache fs u (some days) now).2 =
    ((getCacheDirs u).map (fun r =>
      ((fs.files.filter (oldIn r (now - days * 24 * 60 * 60 * 1000))).map
        (fun f => f.2.size)).sum)).sum

/-- C6: `clearCache` with no age threshold deletes and recreates every
configured cache directory (leaving each present but empty) and returns
the total bytes measured before deletion; `clearCache` with a positive
threshold deletes exactly the files below the cache directories whose
mtime is older than `now - days`, prunes the directories left without any
file below them, leaves newer files intact, and returns the total size of
the deleted files. -/
theorem C6_clearCache_semantics (fs : FSState) (u : Path) (days now : Int)
    (hdays : 0 < days) :
    clearCacheWholesalePost fs u now ∧ clearCacheAgePost fs u days now := by
  have s12 : (u ++ ["Cache"]).isPrefixOf (u ++ ["Code Cache"]) = false :=
    cacheSib u (by decide)
  have s21 : (u ++ ["Code Cache"]).isPrefixOf (u ++ ["Cache"]) = false :=
    cacheSib u (by decide)
  have s13 : (u ++ ["Cache"]).isPrefixOf (u ++ ["GPUCache"]) = false :=
    cacheSib u (by decide)
  have s31 : (u ++ ["GPUCache"]).isPrefixOf (u ++ ["Cache"]) = false :=
    cacheSib u (by decide)
  have s23 : (u ++ ["Code Cache"]).isPrefixOf (u ++ ["GPUCache"]) = false :=
    cacheSib u (by decide)
  have s32 : (u ++ ["GPUCache"]).isPrefixOf (u ++ ["Code Cache"]) = false :=
    cacheSib u (by decide)
  constructor
  · constructor
    · show (clearCacheAll fs
          [u ++ ["Cache"], u ++ ["Code Cache"], u ++ ["GPUCache"]]).2 =
        ((getCacheDirs u).map (getDirectorySize fs)).sum
      rw [clearCacheAll_sum fs s12 s21 s13 s31 s23 s32]
      simp only [getCacheDirs, List.map_cons, List.map_nil, List.sum_cons,
        List.sum_nil]
      omega
    · intro r hr
      exact clearCacheAll_state fs s12 s21 s13 s31 s23 s32 r
        (by simpa [getCacheDirs] using hr)
  · have ha : clearCache fs u (some days) now =
        clearCacheOld fs
          [u ++ ["Cache"], u ++ ["Code Cache"], u ++ ["GPUCache"]]
          (now - days * 24 * 60 * 60 * 1000) := by
      dsimp only [clearCache, getCacheDirs]
      rw [if_pos hdays]
    refine ⟨?_, ?_, ?_⟩
    · rw [ha, clearCacheOld_files]
      rfl
    · rw [ha, clearCacheOld_dirs fs _ s12 s21 s13 s31 s23 s32]
      rfl
    · rw [ha, clearCacheOld_sum fs _ s12 s21 s13 s31 s23 s32]
      simp only [getCacheDirs, List.map_cons, List.map_nil, List.sum_cons,
        List.sum_nil]
      omega

/-- A sample filesystem for evaluating the cache-clear postconditions. -/
def c6SampleFS : FSState :=
  ⟨[(["u", "Cache", "old.bin"], ⟨"o", 100, -5⟩),
    (["u", "Cache", "sub", "new.bin"], ⟨"n", 7, 99999999999⟩),
    (["u", "GPUCache", "g.bin"], ⟨"g", 50, -1⟩)],
   [["u", "Cache", "emptydir"], ["u", "Code Cache"]]⟩

theorem C6_clearCache_semantics_witness :
    (0 : Int) < 1 ∧
    (clearCacheWholesalePost c6SampleFS ["u"] 0 ∧
      clearCacheAgePost c6SampleFS ["u"] 1 0) :=
  ⟨by decide, C6_clearCache_semantics c6SampleFS ["u"] 1 0 (by decide)⟩

/-! ### File-content effect lemmas -/

theorem not_isPrefixOf_append_of_indep {a b : Path} (rel : Path)
    (h1 : a.isPrefixOf b = false) (h2 : b.isPrefixOf a = false) :
    a.isPrefixOf (b ++ rel) = false := by
  cases hx : a.isPrefixOf (b ++ rel)
  · rfl
  · rcases isPrefixOf_total hx (isPrefixOf_append b rel) with hc | hc
    · simp [hc] at h1
    · simp [hc] at h2

theorem extend_indep {k b : Path} (ext : Path)
    (h1 : k.isPrefixOf b = false) (h2 : b.isPrefixOf k = false) :
    ((k ++ ext).isPrefixOf b = false) ∧ (b.isPrefixOf (k ++ ext) = false) := by
  constructor
  · cases hx : (k ++ ext).isPrefixOf b
    · rfl
    · have : k.isPrefixOf b = true :=
        isPrefixOf_trans (isPrefixOf_append k ext) hx
      simp [this] at h1
  · exact not_isPrefixOf_append_of_indep ext h2 h1

theorem append_left_cancel_path {l a b : Path} (h : l ++ a = l ++ b) :
    a = b := by
  induction l with
  | nil => exact h
  | cons x xs ih =>
    injection h with _ h2
    exact ih h2

theorem fileAt_ensureDir (fs : FSState) (p q : Path) :
    fileAt (ensureDir fs p) q = fileAt fs q := by
  unfold fileAt
  rw [ensureDir_files]

theorem fileAt_removeDir (fs : FSState) (p q : Path) :
    fileAt (removeDir fs p) q =
      if p.isPrefixOf q = true then none else fileAt fs q := by
  unfold fileAt removeDir
  dsimp only
  rw [find?_filter_eq]
  by_cases h : p.isPrefixOf q = true
  · rw [if_pos h]
    have hnone : fs.files.find?
        (fun f => !(p.isPrefixOf f.1) && decide (f.1 = q)) = none := by
      rw [List.find?_eq_none]
      intro f _
      by_cases hf : f.1 = q
      · simp [hf, h]
      · simp [hf]
    rw [hnone]
    rfl
  · have h' : p.isPrefixOf q = false := by
      cases hx : p.isPrefixOf q
      · rfl
      · exact absurd hx h
    rw [if_neg h]
    congr 1
    apply find?_congr_eq
    intro f _
    by_cases hf : f.1 = q
    · rw [hf]
      simp [h']
    · simp [hf]

theorem fileAt_removeFile (fs : FSState) (p q : Path) :
    fileAt (removeFile fs p) q = if q = p then none else fileAt fs q := by
  unfold fileAt removeFile
  dsimp only
  rw [find?_filter_eq]
  by_cases h : q = p
  · rw [if_pos h]
    have hnone : fs.files.find?
        (fun f => !(decide (f.1 = p)) && decide (f.1 = q)) = none := by
      rw [List.find?_eq_none]
      intro f _
      by_cases hf : f.1 = q
      · simp [hf, h]
      · simp [hf]
    rw [hnone]
    rfl
  · rw [if_neg h]
    congr 1
    apply find?_congr_eq
    intro f _
    by_cases hf : f.1 = q
    · rw [hf]
      simp [h]
    · simp [hf]

theorem fileAt_cpTree_outside (fs : FSState) {src dest q : Path}
    (h : dest.isPrefixOf q = false) :
    fileAt (cpTree fs src dest) q = fileAt fs q := by
  unfold fileAt cpTree
  dsimp only
  rw [List.find?_append]
  have hnone : ((fs.files.filterMap fun f =>
      if src.isPrefixOf f.1 then some (dest ++ f.1.drop src.length, f.2)
      else none).find? (fun f => decide (f.1 = q))) = none := by
    rw [List.find?_eq_none]
    intro x hx
    rw [List.mem_filterMap] at hx
    obtain ⟨f, _, hf⟩ := hx
    by_cases hs : src.isPrefixOf f.1 = true
    · rw [if_pos hs] at hf
      obtain rfl := Option.some.inj hf
      simp only [decide_eq_true_eq]
      intro hq
      rw [← hq] at h
      rw [isPrefixOf_append] at h
      cases h
    · rw [if_neg hs] at hf
      cases hf
  rw [hnone]
  rfl

theorem find?_copied (l : List (Path × FileData)) (src dest rel : Path) :
    ((l.filterMap fun f =>
      if src.isPrefixOf f.1 then some (dest ++ f.1.drop src.length, f.2)
      else none).find? (fun f => decide (f.1 = dest ++ rel))) =
      (l.find? (fun f => decide (f.1 = src ++ rel))).map
        (fun f => (dest ++ rel, f.2)) := by
  induction l with
  | nil => rfl
  | cons f fs ih =>
    by_cases hs : src.isPrefixOf f.1 = true
    · have hdec := hs
      rw [isPrefixOf_iff_exists] at hdec
      obtain ⟨t, ht⟩ := hdec
      have hdrop : f.1.drop src.length = t := by
        rw [ht]
        exact List.drop_left ..
      rw [List.filterMap_cons, if_pos hs]
      by_cases he : t = rel
      · rw [List.find?_cons_of_pos _ (by simp [hdrop, he]),
          List.find?_cons_of_pos _ (by simp [ht, he])]
        simp [hdrop, he]
      · rw [List.find?_cons_of_neg _ (by
            simp only [decide_eq_true_eq]
            intro hcontra
            rw [hdrop] at hcontra
            exact he (append_left_cancel_path hcontra)),
          List.find?_cons_of_neg _ (by
            simp only [decide_eq_true_eq]
            intro hcontra
            rw [ht] at hcontra
            exact he (append_left_cancel_path hcontra))]
        exact ih
    · rw [List.filterMap_cons, if_neg hs]
      rw [List.find?_cons_of_neg _ (by
        simp only [decide_eq_true_eq]
        intro hcontra
        rw [hcontra] at hs
        exact hs (isPrefixOf_append src rel))]
      exact ih

theorem fileAt_cpTree_inside (fs : FSState) (src dest rel : Path)
    (hfresh : ∀ f ∈ fs.files, dest.isPrefixOf f.1 = false) :
    fileAt (cpTree fs src dest) (dest ++ rel) = fileAt fs (src ++ rel) := by
  unfold fileAt cpTree
  dsimp only
  rw [List.find?_append]
  have hold : fs.files.find? (fun f => decide (f.1 = dest ++ rel)) = none := by
    rw [List.find?_eq_none]
    intro f hf
    simp only [decide_eq_true_eq]
    intro hq
    have hx := hfresh f hf
    rw [hq, isPrefixOf_append] at hx
    cases hx
  rw [hold, find?_copied]
  cases fs.files.find? (fun f => decide (f.1 = src ++ rel)) <;> rfl

/-! ### Frame lemmas for existence and freshness -/

/-- Nothing lives at or below `p`. -/
def noEntriesUnder (fs : FSState) (p : Path) : Prop :=
  (∀ f ∈ fs.files, p.isPrefixOf f.1 = false) ∧
  (∀ d ∈ fs.dirs, p.isPrefixOf d = false)

theorem existsPath_eq_false_of_noEntries {fs : FSState} {p : Path}
    (h : noEntriesUnder fs p) : existsPath fs p = false := by
  unfold existsPath
  rw [Bool.or_eq_false_iff]
  constructor
  · rw [List.any_eq_false]
    intro d hd
    simp [h.2 d hd]
  · rw [List.any_eq_false]
    intro f hf
    simp [h.1 f hf]

theorem fileAt_eq_none_of_not_existsPath {fs : FSState} {p : Path}
    (h : existsPath fs p = false) : fileAt fs p = none := by
  unfold existsPath at h
  rw [Bool.or_eq_false_iff] at h
  unfold fileAt
  have hnone : fs.files.find? (fun f => decide (f.1 = p)) = none := by
    rw [List.find?_eq_none]
    intro f hf
    simp only [decide_eq_true_eq]
    intro hq
    have hfa := List.any_eq_false.mp h.2 f hf
    exact hfa (by rw [hq]; exact isPrefixOf_refl p)
  rw [hnone]
  rfl

theorem noEntriesUnder_mono {fs : FSState} {p q : Path}
    (hpq : p.isPrefixOf q = true) (h : noEntriesUnder fs p) :
    noEntriesUnder fs q := by
  constructor
  · intro f hf
    cases hx : q.isPrefixOf f.1
    · rfl
    · have := isPrefixOf_trans hpq hx
      simp [h.1 f hf] at this
  · intro d hd
    cases hx : q.isPrefixOf d
    · rfl
    · have := isPrefixOf_trans hpq hx
      simp [h.2 d hd] at this

theorem noEntriesUnder_ensureDir {fs : FSState} {p q : Path}
    (hpq : p.isPrefixOf q = false) (h : noEntriesUnder fs p) :
    noEntriesUnder (ensureDir fs q) p := by
  unfold ensureDir
  split
  · exact h
  · refine ⟨h.1, ?_⟩
    intro d hd
    rcases List.mem_cons.mp hd with rfl | hm
    · exact hpq
    · exact h.2 d hm

theorem noEntriesUnder_removeDir {fs : FSState} {p : Path} (q : Path)
    (h : noEntriesUnder fs p) : noEntriesUnder (removeDir fs q) p := by
  constructor
  · intro f hf
    exact h.1 f (List.mem_filter.mp hf).1
  · intro d hd
    exact h.2 d (List.mem_filter.mp hd).1

theorem noEntriesUnder_removeFile {fs : FSState} {p : Path} (q : Path)
    (h : noEntriesUnder fs p) : noEntriesUnder (removeFile fs q) p := by
  constructor
  · intro f hf
    exact h.1 f (List.mem_filter.mp hf).1
  · exact h.2

theorem noEntriesUnder_cpTree {fs : FSState} {p : Path} (src : Path)
    {dest : Path} (h1 : p.isPrefixOf dest = false)
    (h2 : dest.isPrefixOf p = false) (h : noEntriesUnder fs p) :
    noEntriesUnder (cpTree fs src dest) p := by
  constructor
  · intro f hf
    rcases List.mem_append.mp hf with hnew | hold
    · rw [List.mem_filterMap] at hnew
      obtain ⟨g, _, hg⟩ := hnew
      by_cases hs : src.isPrefixOf g.1 = true
      · rw [if_pos hs] at hg
        obtain rfl := Option.some.inj hg
        exact not_isPrefixOf_append_of_indep _ h1 h2
      · rw [if_neg hs] at hg
        cases hg
    · exact h.1 f hold
  · intro d hd
    rcases List.mem_append.mp hd with hnew | hold
    · rw [List.mem_filterMap] at hnew
      obtain ⟨g, _, hg⟩ := hnew
      by_cases hs : src.isPrefixOf g = true
      · rw [if_pos hs] at hg
        obtain rfl := Option.some.inj hg
        exact not_isPrefixOf_append_of_indep _ h1 h2
      · rw [if_neg hs] at hg
        cases hg
    · exact h.2 d hold

theorem existsPath_ensureDir_self (fs : FSState) (p : Path) :
    existsPath (ensureDir fs p) p = true := by
  by_cases h : existsPath fs p = true
  · rw [ensureDir, if_pos h]
    exact h
  · rw [ensureDir, if_neg h]
    unfold existsPath
    dsimp only [List.any_cons]
    rw [isPrefixOf_refl]
    rfl

theorem existsPath_cpTree_true {fs : FSState} (src dest : Path) {q : Path}
    (h : existsPath fs q = true) :
    existsPath (cpTree fs src dest) q = true := by
  unfold existsPath at h ⊢
  unfold cpTree
  dsimp only
  rw [List.any_append, List.any_append]
  cases hd : fs.dirs.any (fun d => q.isPrefixOf d) with
  | false =>
    rw [hd] at h
    simp only [Bool.false_or] at h
    rw [h]
    simp
  | true => simp

/-! ### Reduction lemmas for the import steps -/

theorem copyDir_noFail (fs : FSState) (src dest : Path) :
    copyDir (fun _ _ => false) fs src dest =
      .ok (cpTree (ensureDir fs dest) src dest) := rfl

theorem copyDir_fail (cpFail : CpOracle) (fs : FSState) (src dest : Path)
    (h : cpFail src dest = true) :
    copyDir cpFail fs src dest = .error (ensureDir fs dest) := by
  unfold copyDir
  rw [if_pos h]

theorem copyDir_ok (cpFail : CpOracle) (fs : FSState) (src dest : Path)
    (h : cpFail src dest = false) :
    copyDir cpFail fs src dest =
      .ok (cpTree (ensureDir fs dest) src dest) := by
  unfold copyDir
  rw [if_neg (by simp [h])]

theorem copyDirSwallow_ok (cpFail : CpOracle) (fs : FSState)
    (src dest : Path) (h : cpFail src dest = false) :
    copyDirSwallow cpFail fs src dest =
      cpTree (ensureDir fs dest) src dest := by
  unfold copyDirSwallow
  rw [copyDir_ok cpFail fs src dest h]

theorem importBackupStep_false (cpFail : CpOracle) (fs : FSState)
    (cur bdir : Path) :
    importBackupStep cpFail false fs cur bdir = .ok fs := by
  unfold importBackupStep
  rw [if_neg (by simp)]

theorem importBackupStep_skip (cpFail : CpOracle) (has : Bool)
    (fs : FSState) (cur bdir : Path)
    (h : (childNames fs cur).isEmpty = true) :
    importBackupStep cpFail has fs cur bdir = .ok fs := by
  unfold importBackupStep
  rw [if_neg (by simp [h])]

theorem importBackupStep_run (cpFail : CpOracle) (fs : FSState)
    (cur bdir : Path) (hex : existsPath fs cur = true)
    (hne : (childNames fs cur).isEmpty = false) :
    importBackupStep cpFail true fs cur bdir = copyDir cpFail fs cur bdir := by
  unfold importBackupStep
  rw [if_pos (by simp [hex, hne])]

theorem importSwapStep_false (cpFail : CpOracle) (fs : FSState)
    (src cur : Path) : importSwapStep cpFail false fs src cur = .ok fs := by
  unfold importSwapStep
  rw [if_neg (by simp)]

theorem importSwapStep_true (cpFail : CpOracle) (fs : FSState)
    (src cur : Path) :
    importSwapStep cpFail true fs src cur =
      copyDir cpFail (removeDir fs cur) src cur := by
  unfold importSwapStep
  rw [if_pos rfl]

/-- A backup step that cannot fail reduces to a pure conditional copy. -/
theorem importBackupStep_ok (cpFail : CpOracle) (has : Bool) (fs : FSState)
    (cur bdir : Path) (hf : cpFail cur bdir = false) :
    importBackupStep cpFail has fs cur bdir =
      .ok (if has && existsPath fs cur && !(childNames fs cur).isEmpty then
        cpTree (ensureDir fs bdir) cur bdir else fs) := by
  unfold importBackupStep
  by_cases h : (has && existsPath fs cur && !(childNames fs cur).isEmpty) = true
  · rw [if_pos h, if_pos h, copyDir_ok _ _ _ _ hf]
  · rw [if_neg h, if_neg h]

/-- When nothing at the marker path can make `unlinkSync` throw — either
nothing exists there, or the entry is a regular file — the end of the try
block succeeds and reduces to the unconditional remove-then-delete
shape. -/
theorem importFinish_ok (fs : FSState) (flag backupDir : Path)
    (h : existsPath fs flag = true → (fileAt fs flag).isSome = true) :
    importFinish fs flag backupDir =
      .ok (removeDir (if existsPath fs flag then removeFile fs flag else fs)
        backupDir) := by
  unfold importFinish
  by_cases he : existsPath fs flag = true
  · rw [if_pos he, if_pos (h he), if_pos he]
  · rw [if_neg he, if_neg he]

/-! ### Claim C3 -/

/-- The media-backup phase of a media-only import (proof scaffolding). -/
def c3MediaBackup (fs : FSState) (curMedia bm : Path) : FSState :=
  if !(childNames fs curMedia).isEmpty then
    cpTree (ensureDir fs bm) curMedia bm
  else fs

/-- The final filesystem of a successful media-only import (proof
scaffolding; the marker slot holds a regular file or nothing, so the try
block's `unlinkSync` does not throw). -/
def c3FinalFS (w : World) (userData source backupDir : Path) : FSState :=
  let p := getStorageBasePath w.config userData ++ ["projects"]
  let m := getStorageBasePath w.config userData ++ ["media"]
  let fs0 := ensureDir (ensureDir w.fs p) m
  let fs2 := c3MediaBackup fs0 m (backupDir ++ ["media"])
  let fs4 := cpTree (ensureDir (removeDir fs2 m) m) (source ++ ["media"]) m
  removeDir (if existsPath fs4 (p ++ ["_p", "_migrated.json"]) then
    removeFile fs4 (p ++ ["_p", "_migrated.json"]) else fs4) backupDir

/-- Post-condition of a media-only import (the amended claim C3): the
operation succeeds, the config is untouched, every file below the live
project root other than the migration marker is untouched, and the
migration marker file is absent afterwards. -/
def C3Post (errMsg : String) (w : World)
    (userData source backupDir : Path) : Prop :=
  (importData (fun _ _ => false) errMsg w userData (some source)
      backupDir).2.success = true ∧
  (importData (fun _ _ => false) errMsg w userData (some source)
      backupDir).1.config = w.config ∧
  (∀ rel : Path, rel ≠ ["_p", "_migrated.json"] →
    fileAt (importData (fun _ _ => false) errMsg w userData (some source)
        backupDir).1.fs
      (getStorageBasePath w.config userData ++ ["projects"] ++ rel) =
    fileAt w.fs
      (getStorageBasePath w.config userData ++ ["projects"] ++ rel)) ∧
  fileAt (importData (fun _ _ => false) errMsg w userData (some source)
      backupDir).1.fs
    (getStorageBasePath w.config userData ++ ["projects"] ++
      ["_p", "_migrated.json"]) = none

theorem ne_true_of_eq_false {b : Bool} (h : b = false) : ¬(b = true) := by
  rw [h]
  exact Bool.false_ne_true

/-- A copy into an unrelated destination does not change existence at
`q`. -/
theorem existsPath_cpTree_indep (fs : FSState) (src : Path) {dest q : Path}
    (h1 : q.isPrefixOf dest = false) (h2 : dest.isPrefixOf q = false) :
    existsPath (cpTree fs src dest) q = existsPath fs q := by
  unfold existsPath cpTree
  dsimp only
  rw [List.any_append, List.any_append]
  have hd : ((fs.dirs.filterMap fun d => if src.isPrefixOf d then
      some (dest ++ d.drop src.length) else none).any
      fun d => q.isPrefixOf d) = false := by
    rw [List.any_eq_false]
    intro x hx
    rw [List.mem_filterMap] at hx
    obtain ⟨g, _, hg⟩ := hx
    by_cases hs : src.isPrefixOf g = true
    · rw [if_pos hs] at hg
      obtain rfl := Option.some.inj hg
      exact ne_true_of_eq_false (not_isPrefixOf_append_of_indep _ h1 h2)
    · rw [if_neg hs] at hg
      cases hg
  have hf : ((fs.files.filterMap fun f => if src.isPrefixOf f.1 then
      some (dest ++ f.1.drop src.length, f.2) else none).any
      fun f => q.isPrefixOf f.1) = false := by
    rw [List.any_eq_false]
    intro x hx
    rw [List.mem_filterMap] at hx
    obtain ⟨g, _, hg⟩ := hx
    by_cases hs : src.isPrefixOf g.1 = true
    · rw [if_pos hs] at hg
      obtain rfl := Option.some.inj hg
      exact ne_true_of_eq_false (not_isPrefixOf_append_of_indep _ h1 h2)
    · rw [if_neg hs] at hg
      cases hg
  rw [hd, hf]
  simp

theorem ite_existsPath_fileAt_none (fs : FSState) (p : Path) :
    (if existsPath fs p = true then none else fileAt fs p) = none := by
  cases hx : existsPath fs p with
  | true => simp
  | false =>
    rw [if_neg (by decide : ¬(false = true))]
    exact fileAt_eq_none_of_not_existsPath hx

theorem importData_media_only_eq (errMsg : String) (w : World)
    (userData source backupDir : Path)
    (hP : existsPath w.fs (source ++ ["projects"]) = false)
    (hM : existsPath w.fs (source ++ ["media"]) = true)
    (hb1 : backupDir.isPrefixOf
      (getStorageBasePath w.config userData ++ ["projects"]) = false)
    (hb2 : (getStorageBasePath w.config userData ++ ["projects"]).isPrefixOf
      backupDir = false)
    (hmark : existsPath w.fs (getStorageBasePath w.config userData ++ ["projects"] ++ ["_p", "_migrated.json"]) = true →
      (fileAt w.fs (getStorageBasePath w.config userData ++ ["projects"] ++ ["_p", "_migrated.json"])).isSome = true) :
    importData (fun _ _ => false) errMsg w userData (some source) backupDir =
      ({ w with fs := c3FinalFS w userData source backupDir },
       ⟨true, none⟩) := by
  have sMP : (getStorageBasePath w.config userData ++ ["media"]).isPrefixOf
      (getStorageBasePath w.config userData ++ ["projects"]) = false :=
    sibling_not_isPrefixOf _ [] [] (by decide)
  have sPM : (getStorageBasePath w.config userData ++ ["projects"]).isPrefixOf
      (getStorageBasePath w.config userData ++ ["media"]) = false :=
    sibling_not_isPrefixOf _ [] [] (by decide)
  have hfP : (getStorageBasePath w.config userData ++ ["projects"] ++ ["_p", "_migrated.json"]).isPrefixOf (getStorageBasePath w.config userData ++ ["projects"]) = false :=
    append_cons_not_isPrefixOf _ "_p" ["_migrated.json"]
  have hfM := extend_indep ["_p", "_migrated.json"] sPM sMP
  have hbm := extend_indep ["media"] hb1 hb2
  have hfBM := extend_indep ["_p", "_migrated.json"] hbm.2 hbm.1
  have hexM0 : existsPath (ensureDir (ensureDir w.fs (getStorageBasePath w.config userData ++ ["projects"])) (getStorageBasePath w.config userData ++ ["media"]))
      (getStorageBasePath w.config userData ++ ["media"]) = true :=
    existsPath_ensureDir_self _ _
  have hE : existsPath (cpTree (ensureDir (removeDir
    (if (!(childNames (ensureDir (ensureDir w.fs (getStorageBasePath w.config userData ++ ["projects"])) (getStorageBasePath w.config userData ++ ["media"]))
      (getStorageBasePath w.config userData ++ ["media"])).isEmpty) = true then
      cpTree (ensureDir (ensureDir (ensureDir w.fs (getStorageBasePath w.config userData ++ ["projects"])) (getStorageBasePath w.config userData ++ ["media"]))
        (backupDir ++ ["media"])) (getStorageBasePath w.config userData ++ ["media"])
        (backupDir ++ ["media"])
    else ensureDir (ensureDir w.fs (getStorageBasePath w.config userData ++ ["projects"])) (getStorageBasePath w.config userData ++ ["media"])) (getStorageBasePath w.config userData ++ ["media"]))
    (getStorageBasePath w.config userData ++ ["media"])) (source ++ ["media"])
    (getStorageBasePath w.config userData ++ ["media"]))
      (getStorageBasePath w.config userData ++ ["projects"] ++ ["_p", "_migrated.json"]) =
      existsPath w.fs (getStorageBasePath w.config userData ++ ["projects"] ++ ["_p", "_migrated.json"]) := by
    rw [existsPath_cpTree_indep _ _ hfM.1 hfM.2,
      existsPath_ensureDir_indep _ hfM.1,
      existsPath_removeDir_indep _ hfM.2 hfM.1]
    rw [apply_ite (fun fs => existsPath fs
      (getStorageBasePath w.config userData ++ ["projects"] ++ ["_p", "_migrated.json"]))]
    rw [existsPath_cpTree_indep _ _ hfBM.1 hfBM.2,
      existsPath_ensureDir_indep _ hfBM.1]
    rw [ite_self]
    rw [existsPath_ensureDir_indep _ hfM.1, existsPath_ensureDir_indep _ hfP]
  have hFi : fileAt (cpTree (ensureDir (removeDir
    (if (!(childNames (ensureDir (ensureDir w.fs (getStorageBasePath w.config userData ++ ["projects"])) (getStorageBasePath w.config userData ++ ["media"]))
      (getStorageBasePath w.config userData ++ ["media"])).isEmpty) = true then
      cpTree (ensureDir (ensureDir (ensureDir w.fs (getStorageBasePath w.config userData ++ ["projects"])) (getStorageBasePath w.config userData ++ ["media"]))
        (backupDir ++ ["media"])) (getStorageBasePath w.config userData ++ ["media"])
        (backupDir ++ ["media"])
    else ensureDir (ensureDir w.fs (getStorageBasePath w.config userData ++ ["projects"])) (getStorageBasePath w.config userData ++ ["media"])) (getStorageBasePath w.config userData ++ ["media"]))
    (getStorageBasePath w.config userData ++ ["media"])) (source ++ ["media"])
    (getStorageBasePath w.config userData ++ ["media"]))
      (getStorageBasePath w.config userData ++ ["projects"] ++ ["_p", "_migrated.json"]) =
      fileAt w.fs (getStorageBasePath w.config userData ++ ["projects"] ++ ["_p", "_migrated.json"]) := by
    rw [fileAt_cpTree_outside _ hfM.2, fileAt_ensureDir, fileAt_removeDir,
      if_neg (ne_true_of_eq_false hfM.2)]
    rw [apply_ite (fun fs => fileAt fs
      (getStorageBasePath w.config userData ++ ["projects"] ++ ["_p", "_migrated.json"]))]
    rw [fileAt_cpTree_outside _ hfBM.2]
    simp only [fileAt_ensureDir]
    rw [ite_self]
  have hX : existsPath (cpTree (ensureDir (removeDir
    (if (!(childNames (ensureDir (ensureDir w.fs (getStorageBasePath w.config userData ++ ["projects"])) (getStorageBasePath w.config userData ++ ["media"]))
      (getStorageBasePath w.config userData ++ ["media"])).isEmpty) = true then
      cpTree (ensureDir (ensureDir (ensureDir w.fs (getStorageBasePath w.config userData ++ ["projects"])) (getStorageBasePath w.config userData ++ ["media"]))
        (backupDir ++ ["media"])) (getStorageBasePath w.config userData ++ ["media"])
        (backupDir ++ ["media"])
    else ensureDir (ensureDir w.fs (getStorageBasePath w.config userData ++ ["projects"])) (getStorageBasePath w.config userData ++ ["media"])) (getStorageBasePath w.config userData ++ ["media"]))
    (getStorageBasePath w.config userData ++ ["media"])) (source ++ ["media"])
    (getStorageBasePath w.config userData ++ ["media"]))
      (getStorageBasePath w.config userData ++ ["projects"] ++ ["_p", "_migrated.json"]) = true →
      (fileAt (cpTree (ensureDir (removeDir
    (if (!(childNames (ensureDir (ensureDir w.fs (getStorageBasePath w.config userData ++ ["projects"])) (getStorageBasePath w.config userData ++ ["media"]))
      (getStorageBasePath w.config userData ++ ["media"])).isEmpty) = true then
      cpTree (ensureDir (ensureDir (ensureDir w.fs (getStorageBasePath w.config userData ++ ["projects"])) (getStorageBasePath w.config userData ++ ["media"]))
        (backupDir ++ ["media"])) (getStorageBasePath w.config userData ++ ["media"])
        (backupDir ++ ["media"])
    else ensureDir (ensureDir w.fs (getStorageBasePath w.config userData ++ ["projects"])) (getStorageBasePath w.config userData ++ ["media"])) (getStorageBasePath w.config userData ++ ["media"]))
    (getStorageBasePath w.config userData ++ ["media"])) (source ++ ["media"])
    (getStorageBasePath w.config userData ++ ["media"]))
        (getStorageBasePath w.config userData ++ ["projects"] ++ ["_p", "_migrated.json"])).isSome = true := by
    rw [hE, hFi]
    exact hmark
  unfold importData normalizePath c3FinalFS c3MediaBackup
  dsimp only
  rw [hP, hM]
  rw [if_neg (by decide)]
  rw [importBackupStep_false]
  dsimp only [Except.bind]
  rw [importBackupStep_ok _ _ _ _ _ rfl]
  dsimp only [Except.bind]
  simp only [Bool.true_and]
  rw [hexM0]
  simp only [Bool.true_and]
  rw [importSwapStep_false]
  dsimp only [Except.bind]
  rw [importSwapStep_true, copyDir_noFail]
  dsimp only [Except.bind]
  rw [importFinish_ok _ _ _ hX]

/-- C3 (amended): an import from a source containing `media/` but no
`projects/` succeeds, leaves the config untouched, and leaves every file
below the pre-existing live project root untouched EXCEPT the migration
marker `projects/_p/_migrated.json`, which the handler clears
unconditionally and which is therefore absent afterwards.  The backup
snapshot directory is assumed disjoint from the live project root, and
the marker path is assumed not to be occupied by a directory (otherwise
the try block's `unlinkSync` throws and the import fails instead). -/
theorem C3_import_media_only_amended (errMsg : String) (w : World)
    (userData source backupDir : Path)
    (hP : existsPath w.fs (source ++ ["projects"]) = false)
    (hM : existsPath w.fs (source ++ ["media"]) = true)
    (hb1 : backupDir.isPrefixOf
      (getStorageBasePath w.config userData ++ ["projects"]) = false)
    (hb2 : (getStorageBasePath w.config userData ++ ["projects"]).isPrefixOf
      backupDir = false)
    (hmark : existsPath w.fs (getStorageBasePath w.config userData ++
        ["projects"] ++ ["_p", "_migrated.json"]) = true →
      (fileAt w.fs (getStorageBasePath w.config userData ++
        ["projects"] ++ ["_p", "_migrated.json"])).isSome = true) :
    C3Post errMsg w userData source backupDir := by
  have sMP : (getStorageBasePath w.config userData ++ ["media"]).isPrefixOf
      (getStorageBasePath w.config userData ++ ["projects"]) = false :=
    sibling_not_isPrefixOf _ [] [] (by decide)
  have sPM : (getStorageBasePath w.config userData ++ ["projects"]).isPrefixOf
      (getStorageBasePath w.config userData ++ ["media"]) = false :=
    sibling_not_isPrefixOf _ [] [] (by decide)
  have hbm := extend_indep ["media"] hb1 hb2
  unfold C3Post
  rw [importData_media_only_eq errMsg w userData source backupDir hP hM
    hb1 hb2 hmark]
  refine ⟨rfl, rfl, ?_, ?_⟩
  · intro rel hrel
    have hA : backupDir.isPrefixOf
        (getStorageBasePath w.config userData ++ ["projects"] ++ rel) =
        false := not_isPrefixOf_append_of_indep rel hb1 hb2
    have hmq : (getStorageBasePath w.config userData ++ ["media"]).isPrefixOf
        (getStorageBasePath w.config userData ++ ["projects"] ++ rel) =
        false := not_isPrefixOf_append_of_indep rel sMP sPM
    have hbmq : (backupDir ++ ["media"]).isPrefixOf
        (getStorageBasePath w.config userData ++ ["projects"] ++ rel) =
        false := not_isPrefixOf_append_of_indep rel hbm.1 hbm.2
    show fileAt (c3FinalFS w userData source backupDir) _ = _
    unfold c3FinalFS c3MediaBackup
    dsimp only
    rw [fileAt_removeDir, if_neg (ne_true_of_eq_false hA)]
    rw [apply_ite (fun fs => fileAt fs
      (getStorageBasePath w.config userData ++ ["projects"] ++ rel))]
    rw [fileAt_removeFile,
      if_neg (fun hcontra => hrel (append_left_cancel_path hcontra))]
    rw [ite_self]
    rw [fileAt_cpTree_outside _ hmq, fileAt_ensureDir, fileAt_removeDir,
      if_neg (ne_true_of_eq_false hmq)]
    rw [apply_ite (fun fs => fileAt fs
      (getStorageBasePath w.config userData ++ ["projects"] ++ rel))]
    rw [fileAt_cpTree_outside _ hbmq]
    simp only [fileAt_ensureDir]
    rw [ite_self]
  · have hA : backupDir.isPrefixOf
        (getStorageBasePath w.config userData ++ ["projects"] ++
          ["_p", "_migrated.json"]) = false :=
      not_isPrefixOf_append_of_indep _ hb1 hb2
    show fileAt (c3FinalFS w userData source backupDir) _ = none
    unfold c3FinalFS c3MediaBackup
    dsimp only
    rw [fileAt_removeDir, if_neg (ne_true_of_eq_false hA)]
    rw [apply_ite (fun fs => fileAt fs
      (getStorageBasePath w.config userData ++ ["projects"] ++
        ["_p", "_migrated.json"]))]
    rw [fileAt_removeFile, if_pos rfl]
    exact ite_existsPath_fileAt_none _ _

/-- A concrete world: the live project root holds a data file and the
migration marker; the import source holds only `media/`. -/
def c3World : World :=
  ⟨⟨[(["b", "projects", "p1.json"], ⟨"P1", 10, 0⟩),
     (["b", "projects", "_p", "_migrated.json"], ⟨"FLAG", 1, 0⟩),
     (["b", "media", "m1.png"], ⟨"M1", 20, 0⟩),
     (["s", "media", "x.png"], ⟨"X", 5, 0⟩)],
    [["s", "media"]]⟩,
   ⟨some ["b"], none, none, false, 30⟩⟩

/-- C3 as stated is false: a media-only import that succeeds nevertheless
deletes the migration marker file inside the pre-existing live project
root (the handler clears `projects/_p/_migrated.json` unconditionally). -/
theorem C3_counterexample_migration_flag :
    (importData (fun _ _ => false) "E" c3World ["u"] (some ["s"])
        ["t"]).2.success = true ∧
    fileAt c3World.fs ["b", "projects", "_p", "_migrated.json"] =
      some ⟨"FLAG", 1, 0⟩ ∧
    fileAt (importData (fun _ _ => false) "E" c3World ["u"] (some ["s"])
        ["t"]).1.fs ["b", "projects", "_p", "_migrated.json"] = none :=
  ⟨rfl, rfl, rfl⟩

theorem C3_import_media_only_amended_witness :
    C3Post "E" c3World ["u"] ["s"] ["t"] :=
  C3_import_media_only_amended "E" c3World ["u"] ["s"] ["t"]
    (by decide) (by decide) (by decide) (by decide) (by decide)

/-- A world whose marker path `projects/_p/_migrated.json` is occupied
by a directory (a file lives inside it), with a media-only import
source. -/
def c3DirMarkerWorld : World :=
  ⟨⟨[(["b", "projects", "_p", "_migrated.json", "x.bin"], ⟨"X", 1, 0⟩),
     (["b", "projects", "p1.json"], ⟨"P1", 10, 0⟩),
     (["s", "media", "m.png"], ⟨"M", 2, 0⟩)], [["s", "media"]]⟩,
   ⟨some ["b"], none, none, false, 30⟩⟩

/-- When a directory occupies the marker path, the try block's
`unlinkSync` throws (EISDIR), so even a media-only import rolls back and
reports failure — the success proviso of the amended C3 is sharp. -/
theorem importData_dir_marker_fails :
    (importData (fun _ _ => false) "E" c3DirMarkerWorld ["u"] (some ["s"])
        ["t"]).2 = ⟨false, some "E"⟩ ∧
    fileAt (importData (fun _ _ => false) "E" c3DirMarkerWorld ["u"]
        (some ["s"]) ["t"]).1.fs ["b", "projects", "p1.json"] =
      some ⟨"P1", 10, 0⟩ :=
  ⟨rfl, rfl⟩

/-! ### Claim C1 -/

/-- The failure oracle of the C1 scenario: exactly the copy of the
source's `projects/` tree into the live project root throws. -/
def c1Oracle (sourceProjectsDir currentProjectsDir : Path) : CpOracle :=
  fun s d =>
    decide (s = sourceProjectsDir) && decide (d = currentProjectsDir)

/-- The filesystem after the two `getProjectDataRoot`/`getMediaRoot`
ensure calls at the start of the import (proof scaffolding). -/
def c1fs0 (w : World) (userData : Path) : FSState :=
  ensureDir
    (ensureDir w.fs (getStorageBasePath w.config userData ++ ["projects"]))
    (getStorageBasePath w.config userData ++ ["media"])

/-- The filesystem after the projects backup phase of the C1 scenario
(proof scaffolding; the live project root exists, so the backup runs
exactly when the root is non-empty). -/
def c1fs1 (w : World) (userData backupDir : Path) : FSState :=
  if !(childNames (c1fs0 w userData)
      (getStorageBasePath w.config userData ++ ["projects"])).isEmpty then
    cpTree (ensureDir (c1fs0 w userData) (backupDir ++ ["projects"]))
      (getStorageBasePath w.config userData ++ ["projects"])
      (backupDir ++ ["projects"])
  else c1fs0 w userData

/-- The filesystem after the whole backup phase of the C1 scenario (proof
scaffolding; both backup copies succeed under the C1 oracle). -/
def c1BackupFS (w : World) (userData source backupDir : Path) : FSState :=
  if existsPath w.fs (source ++ ["media"]) &&
      !(childNames (c1fs1 w userData backupDir)
        (getStorageBasePath w.config userData ++ ["media"])).isEmpty then
    cpTree (ensureDir (c1fs1 w userData backupDir) (backupDir ++ ["media"]))
      (getStorageBasePath w.config userData ++ ["media"])
      (backupDir ++ ["media"])
  else c1fs1 w userData backupDir

/-- Post-condition of the C1 failure-injection scenario: the failing
call returns a failure result carrying the original error text,
leaves the config untouched, restores the full content of the live
project root, and leaves the full content of the media root unchanged. -/
def C1Post (errMsg : String) (w : World)
    (userData source backupDir : Path) : Prop :=
  (importData (c1Oracle (source ++ ["projects"])
      (getStorageBasePath w.config userData ++ ["projects"])) errMsg w
      userData (some source) backupDir).2 = ⟨false, some errMsg⟩ ∧
  (importData (c1Oracle (source ++ ["projects"])
      (getStorageBasePath w.config userData ++ ["projects"])) errMsg w
      userData (some source) backupDir).1.config = w.config ∧
  (∀ rel : Path,
    fileAt (importData (c1Oracle (source ++ ["projects"])
        (getStorageBasePath w.config userData ++ ["projects"])) errMsg w
        userData (some source) backupDir).1.fs
      (getStorageBasePath w.config userData ++ ["projects"] ++ rel) =
    fileAt w.fs
      (getStorageBasePath w.config userData ++ ["projects"] ++ rel)) ∧
  (∀ rel : Path,
    fileAt (importData (c1Oracle (source ++ ["projects"])
        (getStorageBasePath w.config userData ++ ["projects"])) errMsg w
        userData (some source) backupDir).1.fs
      (getStorageBasePath w.config userData ++ ["media"] ++ rel) =
    fileAt w.fs
      (getStorageBasePath w.config userData ++ ["media"] ++ rel))

/-- With a freshly stated relative path, a filesystem with no file at the
root and no file strictly below it has no file anywhere below it. -/
theorem fileAt_append_none_of_noStrict {fs : FSState} {p : Path}
    (rel : Path) (h : ∀ f ∈ fs.files, p.isPrefixOf f.1 = true → f.1 = p)
    (hp : fileAt fs p = none) : fileAt fs (p ++ rel) = none := by
  cases rel with
  | nil => simpa using hp
  | cons x xs =>
    unfold fileAt
    have hnone : fs.files.find? (fun f => decide (f.1 = p ++ x :: xs)) =
        none := by
      rw [List.find?_eq_none]
      intro f hf
      simp only [decide_eq_true_eq]
      intro hq
      have hfp := h f hf (by rw [hq]; exact isPrefixOf_append ..)
      rw [hfp] at hq
      exact ne_append_cons p x xs hq
    rw [hnone]
    rfl

/-- A swallowed restore copy, read outside the restored root. -/
theorem fileAt_restore_outside {fsa : FSState} {bsrc cur q : Path}
    (cpFail : CpOracle) (hf : cpFail bsrc cur = false)
    (hq : cur.isPrefixOf q = false) :
    fileAt (copyDirSwallow cpFail (removeDir fsa cur) bsrc cur) q =
      fileAt fsa q := by
  rw [copyDirSwallow_ok _ _ _ _ hf, fileAt_cpTree_outside _ hq,
    fileAt_ensureDir, fileAt_removeDir, if_neg (ne_true_of_eq_false hq)]

/-- A swallowed restore copy, read inside the restored root. -/
theorem fileAt_restore_inside {fsa : FSState} {bsrc cur : Path} (rel : Path)
    (cpFail : CpOracle) (hf : cpFail bsrc cur = false) :
    fileAt (copyDirSwallow cpFail (removeDir fsa cur) bsrc cur)
        (cur ++ rel) = fileAt (removeDir fsa cur) (bsrc ++ rel) := by
  rw [copyDirSwallow_ok _ _ _ _ hf]
  rw [fileAt_cpTree_inside _ _ _ rel (by
    rw [ensureDir_files]
    intro f hf'
    have hmem := (List.mem_filter.mp hf').2
    cases hx : cur.isPrefixOf f.1
    · rfl
    · rw [hx] at hmem
      simp at hmem)]
  rw [fileAt_ensureDir]

/-- A backup copy into a fresh backup location, read inside the backup. -/
theorem fileAt_backup_inside {fs0 : FSState} {cur bdir : Path} (rel : Path)
    (hfr : ∀ f ∈ fs0.files, bdir.isPrefixOf f.1 = false) :
    fileAt (cpTree (ensureDir fs0 bdir) cur bdir) (bdir ++ rel) =
      fileAt fs0 (cur ++ rel) := by
  rw [fileAt_cpTree_inside _ _ _ rel (by rw [ensureDir_files]; exact hfr),
    fileAt_ensureDir]

/-- Existence of the live media root after the backup phase stages. -/
theorem c1_existsPath_fs0_media (w : World) (userData : Path) :
    existsPath (c1fs0 w userData)
      (getStorageBasePath w.config userData ++ ["media"]) = true := by
  unfold c1fs0
  exact existsPath_ensureDir_self _ _

theorem c1_existsPath_fs0_projects (w : World) (userData : Path) :
    existsPath (c1fs0 w userData)
      (getStorageBasePath w.config userData ++ ["projects"]) = true := by
  unfold c1fs0
  exact existsPath_ensureDir_true _ _ _ (existsPath_ensureDir_self _ _)

theorem c1_existsPath_fs1_media (w : World) (userData backupDir : Path) :
    existsPath (c1fs1 w userData backupDir)
      (getStorageBasePath w.config userData ++ ["media"]) = true := by
  unfold c1fs1
  split
  · exact existsPath_cpTree_true _ _
      (existsPath_ensureDir_true _ _ _ (c1_existsPath_fs0_media w userData))
  · exact c1_existsPath_fs0_media w userData

/-- Running the import under the C1 oracle: the try block fails at the
projects swap, so the handler rolls back from the backup snapshot and
reports the original error. -/
theorem importData_c1_eq (errMsg : String) (w : World)
    (userData source backupDir : Path)
    (hSP : existsPath w.fs (source ++ ["projects"]) = true)
    (hfail1 : c1Oracle (source ++ ["projects"])
      (getStorageBasePath w.config userData ++ ["projects"])
      (getStorageBasePath w.config userData ++ ["projects"])
      (backupDir ++ ["projects"]) = false)
    (hfail2 : c1Oracle (source ++ ["projects"])
      (getStorageBasePath w.config userData ++ ["projects"])
      (getStorageBasePath w.config userData ++ ["media"])
      (backupDir ++ ["media"]) = false) :
    importData (c1Oracle (source ++ ["projects"])
        (getStorageBasePath w.config userData ++ ["projects"]))
      errMsg w userData (some source) backupDir =
      ({ w with fs := (importRollback (c1Oracle (source ++ ["projects"])
          (getStorageBasePath w.config userData ++ ["projects"]))
          (ensureDir (removeDir (c1BackupFS w userData source backupDir)
            (getStorageBasePath w.config userData ++ ["projects"]))
            (getStorageBasePath w.config userData ++ ["projects"]))
          (getStorageBasePath w.config userData ++ ["projects"])
          (getStorageBasePath w.config userData ++ ["media"]) backupDir) },
       ⟨false, some errMsg⟩) := by
  have hfailX : c1Oracle (source ++ ["projects"])
      (getStorageBasePath w.config userData ++ ["projects"])
      (source ++ ["projects"])
      (getStorageBasePath w.config userData ++ ["projects"]) = true := by
    unfold c1Oracle
    simp
  have hexP0 : existsPath (ensureDir (ensureDir w.fs
      (getStorageBasePath w.config userData ++ ["projects"]))
      (getStorageBasePath w.config userData ++ ["media"]))
      (getStorageBasePath w.config userData ++ ["projects"]) = true :=
    existsPath_ensureDir_true _ _ _ (existsPath_ensureDir_self _ _)
  have hexM1 := c1_existsPath_fs1_media w userData backupDir
  unfold c1fs1 c1fs0 at hexM1
  unfold importData normalizePath c1BackupFS c1fs1 c1fs0
  dsimp only
  rw [hSP]
  rw [if_neg (by simp)]
  rw [importBackupStep_ok _ _ _ _ _ hfail1]
  dsimp only [Except.bind]
  simp only [Bool.true_and]
  rw [hexP0]
  simp only [Bool.true_and]
  rw [importBackupStep_ok _ _ _ _ _ hfail2]
  dsimp only [Except.bind]
  rw [hexM1]
  simp only [Bool.and_true]
  rw [importSwapStep_true, copyDir_fail _ _ _ _ hfailX]

/-- Under the C1 oracle, the rollback's restore copy of the projects
backup cannot fail: the backup snapshot directory is fresh, so its
`projects/` subpath differs from the (existing) import source. -/
theorem c1Oracle_restore_projects_false (w : World)
    (userData source backupDir : Path)
    (hSP : existsPath w.fs (source ++ ["projects"]) = true)
    (hfresh : noEntriesUnder w.fs backupDir) :
    c1Oracle (source ++ ["projects"])
      (getStorageBasePath w.config userData ++ ["projects"])
      (backupDir ++ ["projects"])
      (getStorageBasePath w.config userData ++ ["projects"]) = false := by
  have hne : backupDir ++ ["projects"] ≠ source ++ ["projects"] := by
    intro h
    have hmono : noEntriesUnder w.fs (backupDir ++ ["projects"]) :=
      noEntriesUnder_mono (isPrefixOf_append _ _) hfresh
    have hfalse := existsPath_eq_false_of_noEntries hmono
    rw [h, hSP] at hfalse
    cases hfalse
  unfold c1Oracle
  rw [decide_eq_false hne]
  exact Bool.false_and _

/-- Under the C1 oracle, the backup copy of the live projects root cannot
fail: its destination lies inside the backup snapshot, not at the live
projects root. -/
theorem c1Oracle_backup_projects_false (w : World)
    (userData source backupDir : Path)
    (hb1 : backupDir.isPrefixOf
      (getStorageBasePath w.config userData ++ ["projects"]) = false) :
    c1Oracle (source ++ ["projects"])
      (getStorageBasePath w.config userData ++ ["projects"])
      (getStorageBasePath w.config userData ++ ["projects"])
      (backupDir ++ ["projects"]) = false := by
  have hne : backupDir ++ ["projects"] ≠
      getStorageBasePath w.config userData ++ ["projects"] := by
    intro h
    have hpre : backupDir.isPrefixOf
        (getStorageBasePath w.config userData ++ ["projects"]) = true := by
      rw [← h]
      exact isPrefixOf_append _ _
    rw [hpre] at hb1
    cases hb1
  unfold c1Oracle
  rw [decide_eq_false hne]
  exact Bool.and_false _

/-- Under the C1 oracle, the backup copy of the live media root cannot
fail. -/
theorem c1Oracle_backup_media_false (w : World)
    (userData source backupDir : Path)
    (hb1 : backupDir.isPrefixOf
      (getStorageBasePath w.config userData ++ ["projects"]) = false) :
    c1Oracle (source ++ ["projects"])
      (getStorageBasePath w.config userData ++ ["projects"])
      (getStorageBasePath w.config userData ++ ["media"])
      (backupDir ++ ["media"]) = false := by
  have hne : backupDir ++ ["media"] ≠
      getStorageBasePath w.config userData ++ ["projects"] := by
    intro h
    have hpre : backupDir.isPrefixOf
        (getStorageBasePath w.config userData ++ ["projects"]) = true := by
      rw [← h]
      exact isPrefixOf_append _ _
    rw [hpre] at hb1
    cases hb1
  unfold c1Oracle
  rw [decide_eq_false hne]
  exact Bool.and_false _

/-- Under the C1 oracle, the rollback's restore copy of the media backup
cannot fail: its destination is the media root, not the projects root. -/
theorem c1Oracle_restore_media_false (w : World)
    (userData source backupDir : Path) :
    c1Oracle (source ++ ["projects"])
      (getStorageBasePath w.config userData ++ ["projects"])
      (backupDir ++ ["media"])
      (getStorageBasePath w.config userData ++ ["media"]) = false := by
  have hne : getStorageBasePath w.config userData ++ ["media"] ≠
      getStorageBasePath w.config userData ++ ["projects"] :=
    append_singleton_ne (by decide)
  unfold c1Oracle
  rw [decide_eq_false hne]
  exact Bool.and_false _

/-- A backup copy, read outside the backup location. -/
theorem fileAt_backup_outside {fs0 : FSState} {cur bdir q : Path}
    (hq : bdir.isPrefixOf q = false) :
    fileAt (cpTree (ensureDir fs0 bdir) cur bdir) q = fileAt fs0 q := by
  rw [fileAt_cpTree_outside _ hq, fileAt_ensureDir]

/-- After the C1 rollback, every file below the live projects root is
back to its pre-import content. -/
theorem c1_project_tree_restored (w : World)
    (userData source backupDir : Path)
    (hSP : existsPath w.fs (source ++ ["projects"]) = true)
    (hfresh : noEntriesUnder w.fs backupDir)
    (hb1 : backupDir.isPrefixOf
      (getStorageBasePath w.config userData ++ ["projects"]) = false)
    (hb2 : (getStorageBasePath w.config userData ++ ["projects"]).isPrefixOf
      backupDir = false)
    (hb3 : backupDir.isPrefixOf
      (getStorageBasePath w.config userData ++ ["media"]) = false)
    (hb4 : (getStorageBasePath w.config userData ++ ["media"]).isPrefixOf
      backupDir = false)
    (hnf : fileAt w.fs
      (getStorageBasePath w.config userData ++ ["projects"]) = none)
    (rel : Path) :
    fileAt (importRollback (c1Oracle (source ++ ["projects"])
        (getStorageBasePath w.config userData ++ ["projects"]))
        (ensureDir (removeDir (c1BackupFS w userData source backupDir)
          (getStorageBasePath w.config userData ++ ["projects"]))
          (getStorageBasePath w.config userData ++ ["projects"]))
        (getStorageBasePath w.config userData ++ ["projects"])
        (getStorageBasePath w.config userData ++ ["media"]) backupDir)
      (getStorageBasePath w.config userData ++ ["projects"] ++ rel) =
    fileAt w.fs
      (getStorageBasePath w.config userData ++ ["projects"] ++ rel) := by
  have hfailR1 :=
    c1Oracle_restore_projects_false w userData source backupDir hSP hfresh
  have hfailR2 := c1Oracle_restore_media_false w userData source backupDir
  have eBP := extend_indep ["projects"] hb1 hb2
  have eBPM := extend_indep ["projects"] hb3 hb4
  have sPM : (getStorageBasePath w.config userData ++ ["projects"]).isPrefixOf
      (getStorageBasePath w.config userData ++ ["media"]) = false :=
    sibling_not_isPrefixOf _ [] [] (by decide)
  have sMP : (getStorageBasePath w.config userData ++ ["media"]).isPrefixOf
      (getStorageBasePath w.config userData ++ ["projects"]) = false :=
    sibling_not_isPrefixOf _ [] [] (by decide)
  have sBPBM : (backupDir ++ ["projects"]).isPrefixOf
      (backupDir ++ ["media"]) = false :=
    sibling_not_isPrefixOf _ [] [] (by decide)
  have sBMBP : (backupDir ++ ["media"]).isPrefixOf
      (backupDir ++ ["projects"]) = false :=
    sibling_not_isPrefixOf _ [] [] (by decide)
  have hfrBP : noEntriesUnder w.fs (backupDir ++ ["projects"]) :=
    noEntriesUnder_mono (isPrefixOf_append _ _) hfresh
  have hXBP : existsPath
      (ensureDir (removeDir (c1BackupFS w userData source backupDir)
        (getStorageBasePath w.config userData ++ ["projects"]))
        (getStorageBasePath w.config userData ++ ["projects"]))
      (backupDir ++ ["projects"]) =
      existsPath (c1fs1 w userData backupDir)
        (backupDir ++ ["projects"]) := by
    rw [existsPath_ensureDir_indep _ eBP.1,
      existsPath_removeDir_indep _ eBP.2 eBP.1]
    unfold c1BackupFS
    rw [apply_ite (fun fs => existsPath fs (backupDir ++ ["projects"]))]
    rw [existsPath_cpTree_indep _ _ sBPBM sBMBP,
      existsPath_ensureDir_indep _ sBPBM]
    exact ite_self _
  unfold importRollback
  dsimp only
  rw [fileAt_removeDir, if_neg (ne_true_of_eq_false
    (not_isPrefixOf_append_of_indep rel hb1 hb2))]
  rw [apply_ite (fun fs => fileAt fs
    (getStorageBasePath w.config userData ++ ["projects"] ++ rel))]
  rw [fileAt_restore_outside _ hfailR2
    (not_isPrefixOf_append_of_indep rel sMP sPM)]
  rw [ite_self]
  cases hcp : (childNames (c1fs0 w userData)
      (getStorageBasePath w.config userData ++ ["projects"])).isEmpty with
  | true =>
    have hfs1 : c1fs1 w userData backupDir = c1fs0 w userData := by
      unfold c1fs1
      rw [hcp]
      rw [if_neg (by decide)]
    have hBPfalse : existsPath (c1fs1 w userData backupDir)
        (backupDir ++ ["projects"]) = false := by
      rw [hfs1]
      unfold c1fs0
      rw [existsPath_ensureDir_indep _ eBPM.1,
        existsPath_ensureDir_indep _ eBP.1]
      exact existsPath_eq_false_of_noEntries hfrBP
    rw [if_neg (ne_true_of_eq_false (hXBP.trans hBPfalse))]
    rw [fileAt_ensureDir, fileAt_removeDir, if_pos (isPrefixOf_append _ _)]
    have hnil : childNames (c1fs0 w userData)
        (getStorageBasePath w.config userData ++ ["projects"]) = [] :=
      List.isEmpty_iff.mp hcp
    have hns := (childNames_eq_nil_iff _ _).mp hnil
    refine (fileAt_append_none_of_noStrict rel
      (fun f hf hp => hns.1 f ?_ hp) hnf).symm
    show f ∈ (c1fs0 w userData).files
    unfold c1fs0
    rw [ensureDir_files, ensureDir_files]
    exact hf
  | false =>
    have hfs1 : c1fs1 w userData backupDir =
        cpTree (ensureDir (c1fs0 w userData) (backupDir ++ ["projects"]))
          (getStorageBasePath w.config userData ++ ["projects"])
          (backupDir ++ ["projects"]) := by
      unfold c1fs1
      rw [hcp]
      rw [if_pos (by decide)]
    have hBPtrue : existsPath (c1fs1 w userData backupDir)
        (backupDir ++ ["projects"]) = true := by
      rw [hfs1]
      exact existsPath_cpTree_true _ _ (existsPath_ensureDir_self _ _)
    rw [if_pos (hXBP.trans hBPtrue)]
    rw [fileAt_restore_inside rel _ hfailR1]
    rw [fileAt_removeDir, if_neg (ne_true_of_eq_false
      (not_isPrefixOf_append_of_indep rel eBP.2 eBP.1))]
    rw [fileAt_ensureDir, fileAt_removeDir, if_neg (ne_true_of_eq_false
      (not_isPrefixOf_append_of_indep rel eBP.2 eBP.1))]
    unfold c1BackupFS
    rw [apply_ite (fun fs => fileAt fs (backupDir ++ ["projects"] ++ rel))]
    rw [fileAt_backup_outside (not_isPrefixOf_append_of_indep rel sBMBP sBPBM)]
    rw [ite_self]
    rw [hfs1]
    rw [fileAt_backup_inside rel (by
      intro f hf
      have h0 : (c1fs0 w userData).files = w.fs.files := by
        unfold c1fs0
        rw [ensureDir_files, ensureDir_files]
      rw [h0] at hf
      exact hfrBP.1 f hf)]
    unfold c1fs0
    rw [fileAt_ensureDir, fileAt_ensureDir]

/-- After the C1 rollback, every file below the live media root is
unchanged: the failure struck before the media swap, and the rollback's
media restore (when it runs) reinstalls the backup copy. -/
theorem c1_media_tree_unchanged (w : World)
    (userData source backupDir : Path)
    (hSP : existsPath w.fs (source ++ ["projects"]) = true)
    (hfresh : noEntriesUnder w.fs backupDir)
    (hb1 : backupDir.isPrefixOf
      (getStorageBasePath w.config userData ++ ["projects"]) = false)
    (hb2 : (getStorageBasePath w.config userData ++ ["projects"]).isPrefixOf
      backupDir = false)
    (hb3 : backupDir.isPrefixOf
      (getStorageBasePath w.config userData ++ ["media"]) = false)
    (hb4 : (getStorageBasePath w.config userData ++ ["media"]).isPrefixOf
      backupDir = false)
    (rel : Path) :
    fileAt (importRollback (c1Oracle (source ++ ["projects"])
        (getStorageBasePath w.config userData ++ ["projects"]))
        (ensureDir (removeDir (c1BackupFS w userData source backupDir)
          (getStorageBasePath w.config userData ++ ["projects"]))
          (getStorageBasePath w.config userData ++ ["projects"]))
        (getStorageBasePath w.config userData ++ ["projects"])
        (getStorageBasePath w.config userData ++ ["media"]) backupDir)
      (getStorageBasePath w.config userData ++ ["media"] ++ rel) =
    fileAt w.fs
      (getStorageBasePath w.config userData ++ ["media"] ++ rel) := by
  have hfailR1 :=
    c1Oracle_restore_projects_false w userData source backupDir hSP hfresh
  have hfailR2 := c1Oracle_restore_media_false w userData source backupDir
  have eBP := extend_indep ["projects"] hb1 hb2
  have eBM := extend_indep ["media"] hb1 hb2
  have eBPM := extend_indep ["projects"] hb3 hb4
  have eBMM := extend_indep ["media"] hb3 hb4
  have sPM : (getStorageBasePath w.config userData ++ ["projects"]).isPrefixOf
      (getStorageBasePath w.config userData ++ ["media"]) = false :=
    sibling_not_isPrefixOf _ [] [] (by decide)
  have sMP : (getStorageBasePath w.config userData ++ ["media"]).isPrefixOf
      (getStorageBasePath w.config userData ++ ["projects"]) = false :=
    sibling_not_isPrefixOf _ [] [] (by decide)
  have sBPBM : (backupDir ++ ["projects"]).isPrefixOf
      (backupDir ++ ["media"]) = false :=
    sibling_not_isPrefixOf _ [] [] (by decide)
  have sBMBP : (backupDir ++ ["media"]).isPrefixOf
      (backupDir ++ ["projects"]) = false :=
    sibling_not_isPrefixOf _ [] [] (by decide)
  have hfrBM : noEntriesUnder w.fs (backupDir ++ ["media"]) :=
    noEntriesUnder_mono (isPrefixOf_append _ _) hfresh
  have base0 : noEntriesUnder (c1fs0 w userData) (backupDir ++ ["media"]) := by
    unfold c1fs0
    exact noEntriesUnder_ensureDir eBMM.1 (noEntriesUnder_ensureDir eBM.1 hfrBM)
  have hfr1 : noEntriesUnder (c1fs1 w userData backupDir)
      (backupDir ++ ["media"]) := by
    unfold c1fs1
    split
    · exact noEntriesUnder_cpTree _ sBMBP sBPBM
        (noEntriesUnder_ensureDir sBMBP base0)
    · exact base0
  have hXBM : existsPath
      (if existsPath (ensureDir (removeDir
            (c1BackupFS w userData source backupDir)
            (getStorageBasePath w.config userData ++ ["projects"]))
            (getStorageBasePath w.config userData ++ ["projects"]))
          (backupDir ++ ["projects"]) = true then
        copyDirSwallow (c1Oracle (source ++ ["projects"])
          (getStorageBasePath w.config userData ++ ["projects"]))
          (removeDir (ensureDir (removeDir
            (c1BackupFS w userData source backupDir)
            (getStorageBasePath w.config userData ++ ["projects"]))
            (getStorageBasePath w.config userData ++ ["projects"]))
            (getStorageBasePath w.config userData ++ ["projects"]))
          (backupDir ++ ["projects"])
          (getStorageBasePath w.config userData ++ ["projects"])
      else ensureDir (removeDir (c1BackupFS w userData source backupDir)
        (getStorageBasePath w.config userData ++ ["projects"]))
        (getStorageBasePath w.config userData ++ ["projects"]))
      (backupDir ++ ["media"]) =
      existsPath (c1BackupFS w userData source backupDir)
        (backupDir ++ ["media"]) := by
    rw [apply_ite (fun fs => existsPath fs (backupDir ++ ["media"]))]
    rw [copyDirSwallow_ok _ _ _ _ hfailR1]
    rw [existsPath_cpTree_indep _ _ eBM.1 eBM.2]
    rw [existsPath_ensureDir_indep _ eBM.1]
    rw [existsPath_removeDir_indep _ eBM.2 eBM.1]
    rw [ite_self]
    rw [existsPath_ensureDir_indep _ eBM.1,
      existsPath_removeDir_indep _ eBM.2 eBM.1]
  cases hcm : (existsPath w.fs (source ++ ["media"]) &&
      !(childNames (c1fs1 w userData backupDir)
        (getStorageBasePath w.config userData ++ ["media"])).isEmpty) with
  | true =>
    have hFB : c1BackupFS w userData source backupDir =
        cpTree (ensureDir (c1fs1 w userData backupDir)
          (backupDir ++ ["media"]))
          (getStorageBasePath w.config userData ++ ["media"])
          (backupDir ++ ["media"]) := by
      unfold c1BackupFS
      rw [hcm]
      rw [if_pos rfl]
    have hBMval : existsPath (c1BackupFS w userData source backupDir)
        (backupDir ++ ["media"]) = true := by
      rw [hFB]
      exact existsPath_cpTree_true _ _ (existsPath_ensureDir_self _ _)
    unfold importRollback
    dsimp only
    rw [fileAt_removeDir, if_neg (ne_true_of_eq_false
      (not_isPrefixOf_append_of_indep rel hb3 hb4))]
    rw [if_pos (hXBM.trans hBMval)]
    rw [fileAt_restore_inside rel _ hfailR2]
    rw [fileAt_removeDir, if_neg (ne_true_of_eq_false
      (not_isPrefixOf_append_of_indep rel eBMM.2 eBMM.1))]
    rw [apply_ite (fun fs => fileAt fs (backupDir ++ ["media"] ++ rel))]
    rw [fileAt_restore_outside _ hfailR1
      (not_isPrefixOf_append_of_indep rel eBM.2 eBM.1)]
    rw [ite_self]
    rw [fileAt_ensureDir, fileAt_removeDir, if_neg (ne_true_of_eq_false
      (not_isPrefixOf_append_of_indep rel eBM.2 eBM.1))]
    rw [hFB]
    rw [fileAt_backup_inside rel (fun f hf => hfr1.1 f hf)]
    unfold c1fs1
    rw [apply_ite (fun fs => fileAt fs
      (getStorageBasePath w.config userData ++ ["media"] ++ rel))]
    rw [fileAt_backup_outside (not_isPrefixOf_append_of_indep rel
      eBPM.1 eBPM.2)]
    rw [ite_self]
    unfold c1fs0
    rw [fileAt_ensureDir, fileAt_ensureDir]
  | false =>
    have hFB : c1BackupFS w userData source backupDir =
        c1fs1 w userData backupDir := by
      unfold c1BackupFS
      rw [hcm]
      rw [if_neg (by decide)]
    have hBMval : existsPath (c1BackupFS w userData source backupDir)
        (backupDir ++ ["media"]) = false := by
      rw [hFB]
      exact existsPath_eq_false_of_noEntries hfr1
    unfold importRollback
    dsimp only
    rw [fileAt_removeDir, if_neg (ne_true_of_eq_false
      (not_isPrefixOf_append_of_indep rel hb3 hb4))]
    rw [if_neg (ne_true_of_eq_false (hXBM.trans hBMval))]
    rw [apply_ite (fun fs => fileAt fs
      (getStorageBasePath w.config userData ++ ["media"] ++ rel))]
    rw [fileAt_restore_outside _ hfailR1
      (not_isPrefixOf_append_of_indep rel sPM sMP)]
    rw [ite_self]
    rw [fileAt_ensureDir, fileAt_removeDir, if_neg (ne_true_of_eq_false
      (not_isPrefixOf_append_of_indep rel sPM sMP))]
    rw [hFB]
    unfold c1fs1
    rw [apply_ite (fun fs => fileAt fs
      (getStorageBasePath w.config userData ++ ["media"] ++ rel))]
    rw [fileAt_backup_outside (not_isPrefixOf_append_of_indep rel
      eBPM.1 eBPM.2)]
    rw [ite_self]
    unfold c1fs0
    rw [fileAt_ensureDir, fileAt_ensureDir]

/-- C1: when the copy of the source's `projects/` tree into the live
projects root throws — after the live projects root has been deleted and
before the media root is touched — the import handler reports a failure
carrying the original error description, leaves the storage config
untouched, restores every file of the live projects root from the backup
snapshot, and leaves every file of the live media root unchanged.  The
backup snapshot directory is fresh (nothing lives beneath it) and
path-disjoint from the two live roots, and no regular file sits at the
projects-root path itself. -/
theorem C1_import_rollback_restores (errMsg : String) (w : World)
    (userData source backupDir : Path)
    (hSP : existsPath w.fs (source ++ ["projects"]) = true)
    (hfresh : noEntriesUnder w.fs backupDir)
    (hb1 : backupDir.isPrefixOf
      (getStorageBasePath w.config userData ++ ["projects"]) = false)
    (hb2 : (getStorageBasePath w.config userData ++ ["projects"]).isPrefixOf
      backupDir = false)
    (hb3 : backupDir.isPrefixOf
      (getStorageBasePath w.config userData ++ ["media"]) = false)
    (hb4 : (getStorageBasePath w.config userData ++ ["media"]).isPrefixOf
      backupDir = false)
    (hnf : fileAt w.fs
      (getStorageBasePath w.config userData ++ ["projects"]) = none) :
    C1Post errMsg w userData source backupDir := by
  unfold C1Post
  rw [importData_c1_eq errMsg w userData source backupDir hSP
    (c1Oracle_backup_projects_false w userData source backupDir hb1)
    (c1Oracle_backup_media_false w userData source backupDir hb1)]
  refine ⟨rfl, rfl, ?_, ?_⟩
  · intro rel
    exact c1_project_tree_restored w userData source backupDir hSP hfresh
      hb1 hb2 hb3 hb4 hnf rel
  · intro rel
    exact c1_media_tree_unchanged w userData source backupDir hSP hfresh
      hb1 hb2 hb3 hb4 rel

/-- A concrete world for the C1 scenario: the live base `b` holds one
project file and one media file, the import source `s` holds a
`projects/` tree, and the backup snapshot directory `t` is fresh. -/
def c1World : World :=
  ⟨⟨[(["b", "projects", "p1.json"], ⟨"P1", 10, 0⟩),
     (["b", "media", "m1.png"], ⟨"M1", 20, 0⟩),
     (["s", "projects", "q.json"], ⟨"Q", 5, 0⟩)],
    [["s", "projects"]]⟩,
   ⟨some ["b"], none, none, false, 30⟩⟩

theorem C1_import_rollback_restores_witness :
    C1Post "boom" c1World ["u"] ["s"] ["t"] :=
  C1_import_rollback_restores "boom" c1World ["u"] ["s"] ["t"]
    (by decide) ⟨by decide, by decide⟩ (by decide) (by decide) (by decide)
    (by decide) (by decide)

end StorageCore
